import Mathlib

/-!
Shallow embedding of the Okta IGA backup system (Python) in Lean 4.

The source under verification is `okta_iga/backup_system.py`,
`iga_pipeline/api_client.py`, `okta_iga/auth/authentication.py` and the
endpoint catalogs under `okta_iga/endpoints/`. Python JSON values are
modelled by `JValue`, Python truthiness by `JValue.truthy`, and each
relevant Python function is translated into a Lean function of the same
name. Asynchronous control flow is modelled by passing the sequence of
I/O outcomes (transport results, detail-call outcomes, sub-run results)
as explicit arguments; sleeps are returned as data rather than performed.
-/

namespace OktaIGA

mutual

/-- Python JSON values (the payloads flowing through the backup system). -/
inductive JValue where
  | null : JValue
  | bool : Bool → JValue
  | num : Int → JValue
  | str : String → JValue
  | arr : JArr → JValue
  | obj : JFields → JValue

/-- A JSON array (a Python list of JSON values). -/
inductive JArr where
  | nil : JArr
  | cons : JValue → JArr → JArr

/-- A JSON object (a Python dict from strings to JSON values). -/
inductive JFields where
  | nil : JFields
  | cons : String → JValue → JFields → JFields

end

deriving instance DecidableEq for JValue
deriving instance DecidableEq for JArr
deriving instance DecidableEq for JFields

namespace JArr

/-- View a JSON array as a Lean list. -/
def toList : JArr → List JValue
  | .nil => []
  | .cons h t => h :: t.toList

/-- Build a JSON array from a Lean list. -/
def ofList : List JValue → JArr
  | [] => .nil
  | h :: t => .cons h (ofList t)

/-- Emptiness of a JSON array. -/
def isNil : JArr → Bool
  | .nil => true
  | .cons _ _ => false

end JArr

namespace JFields

/-- View a JSON object as a Lean association list. -/
def toList : JFields → List (String × JValue)
  | .nil => []
  | .cons k v t => (k, v) :: t.toList

/-- Build a JSON object from a Lean association list. -/
def ofList : List (String × JValue) → JFields
  | [] => .nil
  | (k, v) :: t => .cons k v (ofList t)

/-- Emptiness of a JSON object. -/
def isNil : JFields → Bool
  | .nil => true
  | .cons _ _ _ => false

/-- Dict lookup: value of the first matching key. -/
def lookup : JFields → String → Option JValue
  | .nil, _ => none
  | .cons k v t, key => if k = key then some v else t.lookup key

end JFields

namespace JValue

/-- `JValue.arr` from a Lean list. -/
def arrOf (xs : List JValue) : JValue := .arr (JArr.ofList xs)

/-- `JValue.obj` from a Lean association list. -/
def objOf (fs : List (String × JValue)) : JValue := .obj (JFields.ofList fs)

/-- Python truthiness of a JSON value (`bool(x)`): `None`, `False`, `0`,
`""`, `[]` and `{}` are falsy, everything else truthy. -/
def truthy : JValue → Bool
  | .null => false
  | .bool b => b
  | .num n => n != 0
  | .str s => s ≠ ""
  | .arr xs => !xs.isNil
  | .obj fs => !fs.isNil

/-- `d.get(k)` on a dict: the value of key `k` if the value is an object
holding it, else `None` (modelled as `none`; on a non-dict Python raises
`AttributeError`, which every caller in the source catches — callers that
rely on this are modelled with an explicit non-dict branch). -/
def get : JValue → String → Option JValue
  | .obj fs, k => fs.lookup k
  | _, _ => none

/-- `d.get(k, default)`. -/
def getD (v : JValue) (k : String) (dflt : JValue) : JValue :=
  (v.get k).getD dflt

/-- `k in d` for a dict. -/
def hasKey (v : JValue) (k : String) : Bool :=
  (v.get k).isSome

/-- Whether `d.get(k)` is truthy (the Python idiom
`'k' in d and d['k']`, and `if d.get('k'):`). -/
def truthyKey (v : JValue) (k : String) : Bool :=
  match v.get k with
  | some w => w.truthy
  | none => false

/-- Python iteration over a value (`for x in v` / `list.extend(v)`):
arrays yield their elements, strings their characters, dicts their keys.
Numbers, booleans and `None` are not iterable (Python raises `TypeError`;
the paginator guards this case with `pyIterable` below). -/
def pyIter : JValue → List JValue
  | .arr xs => xs.toList
  | .str s => s.toList.map (fun c => .str (String.mk [c]))
  | .obj fs => fs.toList.map (fun p => .str p.1)
  | _ => []

/-- Whether `len(v)` / iteration succeeds in Python. -/
def pyIterable : JValue → Bool
  | .arr _ => true
  | .str _ => true
  | .obj _ => true
  | _ => false

end JValue

/-! ## Resource-id extraction and the in-memory registry
(`backup_system.py`, `extract_resource_ids_from_object`, lines 347-366;
`collected_resource_ids` is a Python `set`, modelled as a duplicate-free
list with membership-checked insertion). -/

/-- `set.add`: insert a value unless already present. -/
def registry_add (r : List JValue) (x : JValue) : List JValue :=
  if x ∈ r then r else r ++ [x]

/-- Insert a batch of values one by one. -/
def registry_add_all (r : List JValue) (xs : List JValue) : List JValue :=
  xs.foldl registry_add r

/-- The loop `for target in target_resources:` collecting truthy
`target.get('resourceId')` values. A non-dict element raises
`AttributeError`, which the surrounding `except` swallows, keeping the
ids collected so far and abandoning the rest. -/
def collect_target_ids : List JValue → List JValue
  | [] => []
  | t :: rest =>
    match t with
    | .obj _ =>
      (match t.get "resourceId" with
       | some v => if v.truthy then v :: collect_target_ids rest else collect_target_ids rest
       | none => collect_target_ids rest)
    | _ => []

/-- `extract_resource_ids_from_object` (backup_system.py lines 347-366):
for `reviews` collect a truthy `resourceId`; for `campaigns` collect the
truthy `target.resourceId` values under `resourceSettings.targetResources`.
Malformed shapes raise inside the `try`, are swallowed, and yield only
what was already collected; any other endpoint collects nothing. -/
def extract_resource_ids_from_object (obj_data : JValue) (endpoint_name : String) :
    List JValue :=
  if endpoint_name = "reviews" then
    match obj_data with
    | .obj _ =>
      (match obj_data.get "resourceId" with
       | some v => if v.truthy then [v] else []
       | none => [])
    | _ => []
  else if endpoint_name = "campaigns" then
    match obj_data with
    | .obj _ =>
      (match obj_data.getD "resourceSettings" (.objOf []) with
       | .obj rs =>
         (match (JValue.obj rs).getD "targetResources" (.arrOf []) with
          | .arr ts => collect_target_ids ts.toList
          | _ => [])
       | _ => [])
    | _ => []
  else []

/-! ## Page-body parsing
(`backup_system.py` lines 424-444). -/

/-- `endpoint_name.rstrip('s')`: drop every trailing `'s'`. -/
def rstripS (s : String) : String :=
  String.mk ((s.toList.reverse.dropWhile (fun c => c = 's')).reverse)

/-- The response-format dispatch of `backup_endpoint_with_deep_details`
(lines 424-444): a bare array is taken whole; a dict is probed for the
first key with a truthy value among `data`, `results`, `items`, the
endpoint name stripped of trailing `s`, and the endpoint name itself;
failing those, a dict with a truthy `id` is a one-element page; anything
else yields the empty list. Returns the chosen value exactly as the
source assigns `objects_in_page`. -/
def objects_in_page (endpoint_name : String) (data : JValue) : JValue :=
  match data with
  | .arr _ => data
  | .obj _ =>
    if data.truthyKey "data" then data.getD "data" .null
    else if data.truthyKey "results" then data.getD "results" .null
    else if data.truthyKey "items" then data.getD "items" .null
    else if data.truthyKey (rstripS endpoint_name) then data.getD (rstripS endpoint_name) .null
    else if data.truthyKey endpoint_name then data.getD endpoint_name .null
    else if data.truthyKey "id" then .arrOf [data]
    else .arrOf []
  | _ => .arrOf []

/-- The page parser of `ApiClient.fetch_paginated`
(`iga_pipeline/api_client.py` lines 129-136):
`items = payload.get("items") or payload.get("value") or []`; a list is
extended into the result, a non-list truthy selection appends the whole
payload; a non-list non-dict payload contributes nothing. -/
def fetch_paginated_page (payload : JValue) : List JValue :=
  match payload with
  | .arr xs => xs.toList
  | .obj _ =>
    let items :=
      if (payload.getD "items" .null).truthy then payload.getD "items" .null
      else if (payload.getD "value" .null).truthy then payload.getD "value" .null
      else .arrOf []
    (match items with
     | .arr xs => xs.toList
     | _ => [payload])
  | _ => []

end OktaIGA

namespace OktaIGA

/-! ## Transport outcomes and the pagination loop
(`backup_system.py`, `backup_endpoint_with_deep_details` lines 392-496).
`make_request` returns `(response, success)`; the loop only observes the
parsed body and the `rel="next"` link target, so a transport outcome is
either a failure (`None, False`) or a parsed body plus the optional link
target the header scan would produce. -/

/-- One observed result of `make_request` as seen by the pagination loop. -/
inductive Transport where
  | failure : Transport
  | ok : JValue → Option String → Transport
  deriving DecidableEq

/-- Lines 458-480: the body's `next` field overrides the header-derived
link whenever the key is present; otherwise the header value (if any) is
used. The result feeds a truthiness test (`if not next_url: break`). -/
def resolve_next_url (data : JValue) (linkNext : Option String) : Option JValue :=
  match data with
  | .obj _ =>
    (match data.get "next" with
     | some v => some v
     | none => linkNext.map .str)
  | _ => linkNext.map .str

/-- Truthiness of the resolved `next_url` (`None` is falsy). -/
def next_url_truthy (o : Option JValue) : Bool :=
  match o with
  | some v => v.truthy
  | none => false

/-- Outcome of the list phase: pages fetched, accumulated objects, and
whether the very first page's transport call failed. -/
structure ListPhase where
  pages_fetched : Nat
  all_objects : List JValue
  request_failed : Bool
  deriving DecidableEq

/-- The `while True` pagination loop (lines 392-487), with `test_mode`
off. Each iteration consumes the next transport outcome: a failure on
the first page sets `request_failed`; a later failure stops and keeps
what was fetched; a page whose selected value is falsy stops; a truthy
but non-iterable selection raises at `len(...)`, is caught at line 485
and stops; otherwise the page's objects are appended and the loop
continues exactly when the resolved `next_url` is truthy. `none` means
the supplied outcome stream ran out while the loop would have continued. -/
def list_phase_loop (endpoint_name : String) :
    List Transport → Nat → List JValue → Option ListPhase
  | [], _, _ => none
  | .failure :: _, pf, acc => some ⟨pf, acc, pf == 0⟩
  | .ok data link :: rest, pf, acc =>
    let chosen := objects_in_page endpoint_name data
    if chosen.truthy = false then some ⟨pf + 1, acc, false⟩
    else if chosen.pyIterable = false then some ⟨pf + 1, acc, false⟩
    else
      let acc' := acc ++ chosen.pyIter
      if next_url_truthy (resolve_next_url data link) then
        list_phase_loop endpoint_name rest (pf + 1) acc'
      else some ⟨pf + 1, acc', false⟩

/-! ## Detail enrichment
(`fetch_object_detail` lines 563-588 and the result loop lines 498-521). -/

/-- The I/O outcome of one detail task: the detail call succeeded and its
body parsed (`ok`), the call failed or parsing raised so the original
object is the fallback (`fb`), or the task itself raised and `gather`
returned the exception (`exn`). -/
inductive DetailOutcome where
  | ok : JValue → DetailOutcome
  | fb : DetailOutcome
  | exn : DetailOutcome
  deriving DecidableEq

/-- `fetch_object_detail` (lines 563-588): on success the detailed body
is stored and mined for resource ids and `success: True` is returned
with it; otherwise the original object is stored and mined and
`success: False` is returned with it. An `exn` outcome models the task
raising (nothing returned, nothing extracted). -/
def fetch_object_detail (endpoint_name : String) (obj : JValue) (outcome : DetailOutcome)
    (registry : List JValue) : Option ((Bool × JValue) × List JValue) :=
  match outcome with
  | .ok detailed =>
    some ((true, detailed),
      registry_add_all registry (extract_resource_ids_from_object detailed endpoint_name))
  | .fb =>
    some ((false, obj),
      registry_add_all registry (extract_resource_ids_from_object obj endpoint_name))
  | .exn => none

/-- Aggregate of the detail-result loop (lines 512-521). -/
structure DetailAgg where
  objects_with_details : Nat
  fallback_objects : Nat
  detailed_objects : List JValue
  registry : List JValue

/-- The `for result in detail_results` loop: an exception counts as a
fallback and stores nothing; a `success: True` dict counts as detailed
and appends its data; any other dict counts as a fallback and appends
its data. The registry side effects happen inside each task. -/
def process_detail_results (endpoint_name : String) :
    List (JValue × DetailOutcome) → List JValue → DetailAgg
  | [], registry => ⟨0, 0, [], registry⟩
  | (obj, outcome) :: rest, registry =>
    match fetch_object_detail endpoint_name obj outcome registry with
    | none =>
      let agg := process_detail_results endpoint_name rest registry
      { agg with fallback_objects := agg.fallback_objects + 1 }
    | some ((success, data), registry') =>
      let agg := process_detail_results endpoint_name rest registry'
      if success then
        { agg with objects_with_details := agg.objects_with_details + 1,
                   detailed_objects := data :: agg.detailed_objects }
      else
        { agg with fallback_objects := agg.fallback_objects + 1,
                   detailed_objects := data :: agg.detailed_objects }

/-! ## One endpoint's deep backup
(`backup_endpoint_with_deep_details` lines 368-561). -/

/-- The configuration fields of one endpoint that the backup method
consults: `config.get("detail")` and `config.get("list_only", False)`. -/
structure EndpointConfig where
  detail : Option String
  list_only : Bool
  deriving DecidableEq

/-- The per-endpoint result dict. Failed results carry only `status`,
`reason` and `total_objects` in the source; the remaining fields default
to zero here (no claim distinguishes a missing key from zero). Resource
endpoints add the three `*_resources` counters (lines 759-765). -/
structure EndpointResult where
  status : String
  reason : Option String := none
  total_objects : Nat := 0
  pages_fetched : Nat := 0
  detailed_objects : Nat := 0
  fallback_objects : Nat := 0
  successful_resources : Nat := 0
  failed_resources : Nat := 0
  resources_processed : Nat := 0
  deriving DecidableEq

/-- What one endpoint backup produces: the result dict, the registry
after extraction side effects, and the `detailed_objects` list that
would be written to `list_detailed.json`. -/
structure BackupOutcome where
  result : EndpointResult
  registry : List JValue
  detailed_list : List JValue
  deriving DecidableEq

/-- Objects handed to detail tasks: those with a truthy `id` (line 505-507). -/
def objects_with_id (objs : List JValue) : List JValue :=
  objs.filter (fun o => o.truthyKey "id")

/-- `backup_endpoint_with_deep_details` (lines 368-561), with the file
writes elided: run the pagination loop; a first-page transport failure
is `failed/request_failed`; zero objects overall is
`failed/no_entities_discovered`; otherwise, with a detail endpoint and
not `list_only`, each object with a truthy `id` gets a detail task and
the results are tallied; with `list_only` the list data is stored
directly and counted as detailed, with no resource-id extraction on this
branch; with no detail endpoint each object is stored and mined as-is.
`stream` supplies the list-phase transport outcomes and `details` the
per-task detail outcomes in task order. -/
def backup_endpoint_with_deep_details (endpoint_name : String) (config : EndpointConfig)
    (stream : List Transport) (details : List DetailOutcome)
    (registry : List JValue) : Option BackupOutcome :=
  match list_phase_loop endpoint_name stream 0 [] with
  | none => none
  | some lp =>
    if lp.request_failed then
      some ⟨{ status := "failed", reason := some "request_failed" }, registry, []⟩
    else if lp.all_objects.isEmpty then
      some ⟨{ status := "failed", reason := some "no_entities_discovered" }, registry, []⟩
    else
      match config.detail with
      | some _ =>
        if config.list_only = false then
          let agg := process_detail_results endpoint_name
            ((objects_with_id lp.all_objects).zip details) registry
          some ⟨{ status := "success", total_objects := lp.all_objects.length,
                  pages_fetched := lp.pages_fetched,
                  detailed_objects := agg.objects_with_details,
                  fallback_objects := agg.fallback_objects },
                agg.registry, agg.detailed_objects⟩
        else
          some ⟨{ status := "success", total_objects := lp.all_objects.length,
                  pages_fetched := lp.pages_fetched,
                  detailed_objects := lp.all_objects.length,
                  fallback_objects := 0 },
                registry, lp.all_objects⟩
      | none =>
        let registry' := lp.all_objects.foldl
          (fun r o => registry_add_all r (extract_resource_ids_from_object o endpoint_name))
          registry
        some ⟨{ status := "success", total_objects := lp.all_objects.length,
                pages_fetched := lp.pages_fetched }, registry', []⟩

end OktaIGA

namespace OktaIGA

/-! ## The endpoint catalogs
(`okta_iga/endpoints/global_endpoints.py` and `resource_endpoints.py`),
restricted to the fields the orchestrator consults. -/

/-- One catalog entry: the `detail` template if any, the `list_only`
flag (`config.get("list_only", False)`) and the `requires_filter` flag. -/
structure CatalogEntry where
  detail : Option String
  list_only : Bool := false
  requires_filter : Bool := false
  deriving DecidableEq

/-- `get_global_endpoints()`. -/
def get_global_endpoints : List (String × CatalogEntry) :=
  [("campaigns", { detail := some "/governance/api/v1/campaigns/{id}" }),
   ("reviews", { detail := some "/governance/api/v1/reviews/{id}" }),
   ("request_types", { detail := some "/governance/api/v1/request-types/{id}" }),
   ("requests_v1", { detail := some "/governance/api/v1/requests/{id}" }),
   ("requests_v2", { detail := some "/governance/api/v2/requests/{id}" }),
   ("request_settings_global", { detail := none }),
   ("entitlement_bundles", { detail := some "/governance/api/v1/entitlement-bundles/{id}" }),
   ("collections", { detail := some "/governance/api/v1/collections/{id}" }),
   ("risk_rules", { detail := some "/governance/api/v1/risk-rules/{id}" }),
   ("delegates", { detail := some "/governance/api/v1/delegates/{id}" })]

/-- `get_resource_endpoints()`. -/
def get_resource_endpoints : List (String × CatalogEntry) :=
  [("grants", { detail := some "/governance/api/v1/grants/{id}", list_only := true,
                requires_filter := true }),
   ("entitlements", { detail := some "/governance/api/v1/entitlements/{id}",
                      requires_filter := true }),
   ("request_conditions", { detail := some "/governance/api/v2/request-conditions/{id}" }),
   ("request_settings", { detail := none }),
   ("request_sequences", { detail := some "/governance/api/v2/request-sequences/{id}",
                           list_only := true }),
   ("principal_entitlements", { detail := none, requires_filter := true }),
   ("principal_access", { detail := none, requires_filter := true })]

/-! ## The retrying transports
(`backup_system.py`, `make_request` lines 195-254, and
`iga_pipeline/api_client.py`, `ApiClient._request` lines 81-104). -/

/-- The status-level outcome of a single HTTP GET. -/
inductive HttpOutcome where
  | status429 : Option String → HttpOutcome
  | errorStatus : Nat → HttpOutcome
  | netError : HttpOutcome
  | okJson : JValue → HttpOutcome
  deriving DecidableEq

/-- Decimal digits to a natural number (`none` on empty input or a
non-digit). -/
def digitsToNat (cs : List Char) : Option Nat :=
  if cs.isEmpty then none
  else
    cs.foldl
      (fun acc c =>
        match acc with
        | none => none
        | some n => if c.isDigit then some (n * 10 + (c.toNat - 48)) else none)
      (some 0)

/-- Python `int(str)` on a header value: an optional sign followed by
decimal digits (whitespace/underscore niceties of CPython are not
needed for `Retry-After` values); `none` models the `ValueError` the
caller catches. -/
def pyParseInt (s : String) : Option Int :=
  match s.toList with
  | '-' :: rest => (digitsToNat rest).map (fun n => -(n : Int))
  | '+' :: rest => (digitsToNat rest).map (fun n => (n : Int))
  | cs => (digitsToNat cs).map (fun n => (n : Int))

/-- Lines 218-222: `Retry-After` if present is parsed with `int(...)`,
falling back to the configured `retry_429_delay` when absent or
unparsable. -/
def make_request_429_delay (retryAfter : Option String) (retry_429_delay : Int) : Int :=
  match retryAfter with
  | none => retry_429_delay
  | some s => (pyParseInt s).getD retry_429_delay

/-- `OktaIGABackupAsync.make_request` (lines 195-254): issues exactly one
GET. On 429 it sleeps the `Retry-After`-derived delay and returns
`(None, False)` — it does not reissue the call; any status `>= 400`,
timeout or exception also returns `(None, False)`; a success returns the
parsed body. Result: the sleeps performed and the payload (`none` is the
`(None, False)` failure). -/
def make_request (retry_429_delay : Int) (outcome : HttpOutcome) :
    List Int × Option JValue :=
  match outcome with
  | .status429 ra => ([make_request_429_delay ra retry_429_delay], none)
  | .errorStatus _ => ([], none)
  | .netError => ([], none)
  | .okJson data => ([], some data)

/-- Line 95 of api_client.py:
`backoff = min(int(backoff * self.backoff_multiplier), self.max_retry_delay)`.
The float multiplier is modelled as the exact rational `num/den`
(1.5 = 3/2 by default); `int(...)` on the nonnegative product is the
floor, i.e. natural division. -/
def next_backoff (num den maxD b : Nat) : Nat :=
  min (b * num / den) maxD

/-- The value of `backoff` before the k-th 429 retry of one
`ApiClient._request` call: `retry_429_delay` initially, then the line-95
update after each 429. -/
def backoffSeq (retry429 num den maxD : Nat) : Nat → Nat
  | 0 => retry429
  | k + 1 => next_backoff num den maxD (backoffSeq retry429 num den maxD k)

/-- `ApiClient._request` (lines 89-104): a `while True` loop that, on
each 429 (ignoring any `Retry-After` header), sleeps the current
`backoff`, advances `backoff` by `next_backoff`, and reissues the call;
any other status `>= 400`, timeout or exception returns `(None, None)`;
success returns the payload. `none` means the supplied outcome stream
ran out while the loop would have retried. -/
def api_client_request (retry429 num den maxD : Nat) :
    List HttpOutcome → Nat → Option (List Nat × Option JValue)
  | [], _ => none
  | .status429 _ :: rest, b =>
    (match api_client_request retry429 num den maxD rest (next_backoff num den maxD b) with
     | none => none
     | some (sleeps, r) => some (b :: sleeps, r))
  | .errorStatus _ :: _, _ => some ([], none)
  | .netError :: _, _ => some ([], none)
  | .okJson data :: _, _ => some ([], some data)

/-! ## The rate limiter
(`backup_system.py`, `check_rate_limit` lines 169-193; the copy in
`api_client.py` lines 64-79 differs only by a redundant
`max(..., 0)`). Wall-clock instants are exact rationals. -/

/-- Rate-limiting configuration. -/
structure RateConfig where
  rate_limit_per_minute : Nat
  burst_size : Nat
  deriving DecidableEq

/-- The shared mutable window state. -/
structure RateState where
  start_time : ℚ
  request_count : Nat
  deriving DecidableEq

/-- Python `int(...)` on a rational: truncation toward zero. -/
def pyInt (q : ℚ) : Int :=
  if q < 0 then -(⌊-q⌋) else ⌊q⌋

/-- `check_rate_limit` (lines 169-193), run under the lock at wall-clock
`now`: reset the window when 60 seconds have elapsed; compute
`available = burst_size + int((elapsed / 60) * rate)`; if the counter
has reached `available`, sleep `min(1 / (rate / 60), 60)` (the 1/rps
guard `if sleep_time > 0` included); always increment the counter.
Returns the new state and the sleep duration (0 = proceed immediately). -/
def check_rate_limit (cfg : RateConfig) (now : ℚ) (s : RateState) : RateState × ℚ :=
  let elapsed0 := now - s.start_time
  let reset := 60 ≤ elapsed0
  let count := if reset then 0 else s.request_count
  let start := if reset then now else s.start_time
  let elapsed := if reset then 0 else elapsed0
  let accumulated := pyInt (elapsed / 60 * (cfg.rate_limit_per_minute : ℚ))
  let available : Int := (cfg.burst_size : Int) + accumulated
  let sleep : ℚ :=
    if available ≤ (count : Int) then
      let requests_per_second : ℚ := (cfg.rate_limit_per_minute : ℚ) / 60
      let sleep_time : ℚ := 1 / requests_per_second
      if 0 < sleep_time then min sleep_time 60 else 0
    else 0
  (⟨start, count + 1⟩, sleep)

/-- The admission rule exactly as claim C8 words it (the refinement
target): if at least 60 seconds have elapsed since `windowStart`, reset
the counter to 0 and `windowStart` to `now`; `available` equals the
burst size plus `floor((elapsed / 60) * R)`; if the counter has reached
`available` the caller sleeps `1 / (R / 60)` capped at 60 seconds, else
proceeds immediately; the counter is incremented by exactly one. -/
def rate_admit_spec (cfg : RateConfig) (now : ℚ) (s : RateState) : RateState × ℚ :=
  let reset := 60 ≤ now - s.start_time
  let count := if reset then 0 else s.request_count
  let start := if reset then now else s.start_time
  let elapsed := now - start
  let available : Int := (cfg.burst_size : Int) + ⌊elapsed / 60 * (cfg.rate_limit_per_minute : ℚ)⌋
  let sleep : ℚ :=
    if available ≤ (count : Int) then
      min (1 / ((cfg.rate_limit_per_minute : ℚ) / 60)) 60
    else 0
  (⟨start, count + 1⟩, sleep)

end OktaIGA

namespace OktaIGA

/-! ## Authentication
(`okta_iga/auth/authentication.py`) and the JSON credential loader
(`backup_system.py`, `fetch_tenant_credentials_from_json` lines 960-1013).
Wall-clock instants are rationals measured in seconds. -/

/-- Truthiness of an optional string credential field (`None` and `""`
are falsy). -/
def pyTruthyOptStr (o : Option String) : Bool :=
  match o with
  | none => false
  | some s => s ≠ ""

/-- One tenant record of `configs/credentials.json`, as read by
`tenant.get(...)` (absent keys give `None`). -/
structure TenantRecord where
  okta_domain : Option String
  api_token : Option String
  oauth_client_id : Option String
  oauth_client_secret : Option String
  deriving DecidableEq

/-- The credential fields the backup system keeps after loading. -/
structure Credentials where
  okta_domain : String
  api_token : String
  client_id : Option String
  client_secret : Option String
  deriving DecidableEq

/-- `fetch_tenant_credentials_from_json` (lines 960-1013), after the
tenant record has been found: `okta_domain` and `api_token` must both be
truthy or the loader raises (wrapped into `RuntimeError`); the OAuth
fields are copied through without validation. -/
def fetch_tenant_credentials_from_json (t : TenantRecord) : Except String Credentials :=
  if pyTruthyOptStr t.okta_domain = false then
    .error "okta_domain not found"
  else if pyTruthyOptStr t.api_token = false then
    .error "api_token not found"
  else
    .ok { okta_domain := t.okta_domain.getD "", api_token := t.api_token.getD "",
          client_id := t.oauth_client_id, client_secret := t.oauth_client_secret }

/-- The mutable state of `OktaAuthenticator`. -/
structure AuthState where
  api_token : Option String
  client_id : Option String
  client_secret : Option String
  access_token : Option String
  token_expires_at : Option ℚ
  deriving DecidableEq

/-- The `Authorization` header produced with the other two constant
headers (`Content-Type`, `Accept`). -/
def auth_headers (authorization : String) : List (String × String) :=
  [("Authorization", authorization),
   ("Content-Type", "application/json"),
   ("Accept", "application/json")]

/-- `fetch_oauth_token` (lines 40-81): without both client credentials it
returns `None`; otherwise the token endpoint's outcome is supplied as
`tokenFetch = some (access_token, expires_in)` on HTTP 200 (with the
`expires_in` default 3600 already applied) or `none` on any error. A
truthy token sets `token_expires_at = now + (expires_in - 300)` — a
5-minute safety margin — and is returned. -/
def fetch_oauth_token (s : AuthState) (now : ℚ) (tokenFetch : Option (String × ℚ)) :
    AuthState × Option String :=
  if (pyTruthyOptStr s.client_id && pyTruthyOptStr s.client_secret) = false then (s, none)
  else
    match tokenFetch with
    | some (tok, expires_in) =>
      if tok ≠ "" then ({ s with token_expires_at := some (now + (expires_in - 300)) }, some tok)
      else (s, none)
    | none => (s, none)

/-- The reuse condition of `ensure_valid_token` (lines 86-87): a truthy
cached token whose (truthy) `token_expires_at` lies strictly after
`now`. -/
def token_still_valid (s : AuthState) (now : ℚ) : Bool :=
  pyTruthyOptStr s.access_token &&
    (match s.token_expires_at with
     | some e => decide (now < e)
     | none => false)

/-- `ensure_valid_token` (lines 83-93): a still-valid cached token is
reused untouched; otherwise a new token is fetched and stored (on
failure the stored token becomes `None`). Returns whether a token is now
available (`access_token is not None`). -/
def ensure_valid_token (s : AuthState) (now : ℚ) (tokenFetch : Option (String × ℚ)) :
    AuthState × Bool :=
  if token_still_valid s now then
    (s, true)
  else
    let fetched := fetch_oauth_token s now tokenFetch
    ({ fetched.1 with access_token := fetched.2 }, fetched.2.isSome)

/-- `setup_authentication` (lines 95-122): a truthy API token wins and
yields `SSWS` headers; otherwise truthy OAuth client credentials yield
`Bearer` headers after an initial token fetch (raising on failure);
with neither the authenticator raises. -/
def setup_authentication (s : AuthState) (now : ℚ) (tokenFetch : Option (String × ℚ)) :
    Except String (AuthState × List (String × String)) :=
  if pyTruthyOptStr s.api_token then
    .ok (s, auth_headers ("SSWS " ++ s.api_token.getD ""))
  else if pyTruthyOptStr s.client_id && pyTruthyOptStr s.client_secret then
    let r := ensure_valid_token s now tokenFetch
    if r.2 then .ok (r.1, auth_headers ("Bearer " ++ r.1.access_token.getD ""))
    else .error "Failed to obtain OAuth access token"
  else .error "No authentication credentials available"

/-- `get_headers` (lines 124-137), returning the headers used for the
next request: in OAuth mode (client credentials present and no API
token) the token is revalidated and the `Bearer` header recomputed
(raising if the refresh fails); otherwise the headers set by
`setup_authentication` are returned unchanged, here recomputed from the
state (`prev` is what `setup_authentication` stored). -/
def get_headers (s : AuthState) (now : ℚ) (tokenFetch : Option (String × ℚ))
    (prev : List (String × String)) :
    Except String (AuthState × List (String × String)) :=
  if pyTruthyOptStr s.client_id && pyTruthyOptStr s.client_secret &&
      !pyTruthyOptStr s.api_token then
    let r := ensure_valid_token s now tokenFetch
    if r.2 then .ok (r.1, auth_headers ("Bearer " ++ r.1.access_token.getD ""))
    else .error "Failed to refresh OAuth token"
  else .ok (s, prev)

/-! ## Run-level orchestration
(`backup_system.py`: `run_complete_backup` lines 590-677,
`process_basic_endpoint` lines 679-702, `process_resource_endpoint`
lines 720-766, `backup_single_resource_context` lines 768-811). -/

/-- The run summary: the `endpoints_backed_up` dict (an append-only
association list here — every endpoint name is recorded at most once per
run) and the run-level `total_objects`. -/
structure Summary where
  endpoints_backed_up : List (String × EndpointResult)
  total_objects : Nat
  deriving DecidableEq

/-- `process_basic_endpoint` (lines 679-702): filter-requiring endpoints
are skipped without recording anything; an exception from the endpoint
task records `failed/exception` with zero objects; otherwise the result
is recorded and its objects are added to the run total only when the
status is `success`. -/
def process_basic_endpoint (requires_filter : Bool) (object_type : String)
    (run : Except String EndpointResult) (summary : Summary) : Summary :=
  if requires_filter then summary
  else
    match run with
    | .error e =>
      { summary with endpoints_backed_up := summary.endpoints_backed_up ++
          [(object_type, { status := "failed", reason := some ("exception: " ++ e) })] }
    | .ok r =>
      { endpoints_backed_up := summary.endpoints_backed_up ++ [(object_type, r)],
        total_objects := summary.total_objects +
          (if r.status = "success" then r.total_objects else 0) }

/-- What one per-resource-id sub-run reports back. -/
structure SubResult where
  success : Bool
  objects : Nat
  deriving DecidableEq

/-- Which of the three endpoint-building branches of
`backup_single_resource_context` (lines 774-785) applies. -/
inductive ResourceConfigKind where
  | resourceList : ResourceConfigKind
  | filterBased : ResourceConfigKind
  | invalid : ResourceConfigKind
  deriving DecidableEq

/-- `backup_single_resource_context` (lines 768-811): an invalid
configuration reports zero objects and failure; otherwise the deep
backup runs (an exception inside the `try` is caught and reported as
failure); a successful endpoint result reports its object count, any
other result reports failure with zero objects. -/
def backup_single_resource_context (kind : ResourceConfigKind)
    (run : Except Unit EndpointResult) : SubResult :=
  match kind with
  | .invalid => { success := false, objects := 0 }
  | _ =>
    match run with
    | .error _ => { success := false, objects := 0 }
    | .ok r =>
      if r.status = "success" then { success := true, objects := r.total_objects }
      else { success := false, objects := 0 }

/-- The tallying loop of `process_resource_endpoint` (lines 749-757):
exceptions from `gather` count as failed resources; each returned dict
adds its `objects` to the total and counts its `success` flag. Returns
`(total_objects, successful_resources, failed_resources)`. -/
def tally_sub_results (subs : List (Except Unit SubResult)) : Nat × Nat × Nat :=
  subs.foldl
    (fun acc r =>
      match r with
      | .error _ => (acc.1, acc.2.1, acc.2.2 + 1)
      | .ok sr =>
        if sr.success then (acc.1 + sr.objects, acc.2.1 + 1, acc.2.2)
        else (acc.1 + sr.objects, acc.2.1, acc.2.2 + 1))
    (0, 0, 0)

/-- `process_resource_endpoint` (lines 720-766): with no resources the
endpoint is marked `failed/no_resources_available`; otherwise one
sub-run per resource id is gathered, the endpoint is `success` exactly
when at least one sub-run succeeded, and the aggregated object total is
added to the run total unconditionally. -/
def process_resource_endpoint (object_type : String) (resources : List JValue)
    (subs : List (Except Unit SubResult)) (summary : Summary) : Summary :=
  if resources.isEmpty then
    { summary with endpoints_backed_up := summary.endpoints_backed_up ++
        [(object_type, { status := "failed", reason := some "no_resources_available" })] }
  else
    let t := tally_sub_results subs
    { endpoints_backed_up := summary.endpoints_backed_up ++
        [(object_type, { status := if 0 < t.2.1 then "success" else "failed",
                         total_objects := t.1,
                         successful_resources := t.2.1,
                         failed_resources := t.2.2,
                         resources_processed := resources.length })],
      total_objects := summary.total_objects + t.1 }

/-- The raw inputs a resource endpoint's sub-runs are built from: for
each resource id, either the sub-task raised (`error`), or it completed
via `backup_single_resource_context` from a configuration kind and a
deep-backup outcome. -/
def sub_results_of (inputs : List (Except Unit (ResourceConfigKind × Except Unit EndpointResult))) :
    List (Except Unit SubResult) :=
  inputs.map (fun i => i.map (fun p => backup_single_resource_context p.1 p.2))

/-- Step 2 of `run_complete_backup` (lines 648-668): when the registry
produced no resource ids the `if available_resources:` guard skips the
whole step — no sub-run is launched and no summary entry is written for
any resource endpoint. Otherwise each enabled resource endpoint is
processed over all discovered ids; `subInputsFor` supplies the per-id
sub-run inputs of each endpoint. -/
def run_step2 (available_resources : List JValue)
    (resource_endpoints : List (String × Bool))
    (subInputsFor : String → List (Except Unit (ResourceConfigKind × Except Unit EndpointResult)))
    (summary : Summary) : Summary :=
  if available_resources.isEmpty then summary
  else
    (resource_endpoints.filter (fun p => p.2)).foldl
      (fun s p => process_resource_endpoint p.1 available_resources
        (sub_results_of (subInputsFor p.1)) s)
      summary

/-- A whole run's summary construction (`run_complete_backup`): step 1
folds the enabled basic endpoints (each given as requires-filter flag,
name, and task outcome); step 2 is `run_step2` over the collected
resource ids. The summary starts with an empty dict and a zero total. -/
def run_complete_backup
    (basic : List (Bool × String × Except String EndpointResult))
    (available_resources : List JValue)
    (resource_endpoints : List (String × Bool))
    (subInputsFor : String → List (Except Unit (ResourceConfigKind × Except Unit EndpointResult))) :
    Summary :=
  run_step2 available_resources resource_endpoints subInputsFor
    (basic.foldl (fun s e => process_basic_endpoint e.1 e.2.1 e.2.2 s) ⟨[], 0⟩)

/-- Sum of `total_objects` over the summary entries whose status is
`success`. -/
def sum_success_totals (entries : List (String × EndpointResult)) : Nat :=
  (entries.filter (fun p => p.2.status = "success")).foldl
    (fun a p => a + p.2.total_objects) 0

end OktaIGA

namespace OktaIGA

/-! ## Derived views used only to state properties -/

/-- Whether an `Except` result is a success. -/
def exceptOk {ε α : Type} (e : Except ε α) : Bool :=
  match e with
  | .ok _ => true
  | .error _ => false

/-- Claim C6 as written: the first key PRESENT in the priority order
selects the page objects, regardless of its value's truthiness. This is
the refinement target the code is compared against. -/
def page_objects_claimed (endpoint_name : String) (data : JValue) : JValue :=
  match data with
  | .arr _ => data
  | .obj _ =>
    if data.hasKey "data" then data.getD "data" .null
    else if data.hasKey "results" then data.getD "results" .null
    else if data.hasKey "items" then data.getD "items" .null
    else if data.hasKey (rstripS endpoint_name) then data.getD (rstripS endpoint_name) .null
    else if data.hasKey endpoint_name then data.getD endpoint_name .null
    else if data.truthyKey "id" then .arrOf [data]
    else .arrOf []
  | _ => .arrOf []

/-- The amended page contract: the first key whose value is truthy, in
the priority order, selects the page objects; with no truthy priority
key, a truthy `id` makes the dict a one-element page; anything else is
empty. -/
def page_objects_spec (endpoint_name : String) (data : JValue) : JValue :=
  match data with
  | .arr _ => data
  | .obj _ =>
    (match ["data", "results", "items", rstripS endpoint_name, endpoint_name].find?
        (fun k => data.truthyKey k) with
     | some k => data.getD k .null
     | none => if data.truthyKey "id" then .arrOf [data] else .arrOf [])
  | _ => .arrOf []

/-- The `ApiClient.fetch_paginated` page contract in the same style: the
first truthy key among `items`, `value` selects the page; a truthy
non-list selection makes the whole payload a one-element page; with no
truthy key the page is empty. -/
def fetch_paginated_spec (payload : JValue) : List JValue :=
  match payload with
  | .arr xs => xs.toList
  | .obj _ =>
    (match ["items", "value"].find? (fun k => payload.truthyKey k) with
     | some k =>
       (match payload.getD k .null with
        | .arr xs => xs.toList
        | _ => [payload])
     | none => [])
  | _ => []

/-- The objects one page outcome contributes to `all_objects`. -/
def transport_page_objects (endpoint_name : String) : Transport → List JValue
  | .failure => []
  | .ok data _ => (objects_in_page endpoint_name data).pyIter

/-- A page outcome after which the pagination loop keeps going: the
selection is truthy and iterable, contributes at least one object, and a
truthy `next_url` is resolved. -/
def continuing_page (endpoint_name : String) : Transport → Bool
  | .failure => false
  | .ok data link =>
    (objects_in_page endpoint_name data).truthy &&
    (objects_in_page endpoint_name data).pyIterable &&
    !(objects_in_page endpoint_name data).pyIter.isEmpty &&
    next_url_truthy (resolve_next_url data link)

/-- The `all_objects` list the pagination loop collects from a stream
(empty when the supplied stream runs out). -/
def listed_objects (endpoint_name : String) (stream : List Transport) : List JValue :=
  match list_phase_loop endpoint_name stream 0 [] with
  | some lp => lp.all_objects
  | none => []

/-- Whether a per-resource sub-run input ends in a successful sub-run. -/
def sub_success (i : Except Unit (ResourceConfigKind × Except Unit EndpointResult)) : Bool :=
  match i with
  | .ok p => (backup_single_resource_context p.1 p.2).success
  | .error _ => false

/-- The objects a per-resource sub-run input contributes when (and only
when) it succeeds. -/
def sub_success_objects (i : Except Unit (ResourceConfigKind × Except Unit EndpointResult)) :
    Nat :=
  match i with
  | .ok p =>
    if (backup_single_resource_context p.1 p.2).success then
      (backup_single_resource_context p.1 p.2).objects
    else 0
  | .error _ => 0

end OktaIGA

namespace OktaIGA

/-! ## Basic lemmas about the data model -/

@[simp] theorem JArr.arrToList_ofList (xs : List JValue) : (JArr.ofList xs).toList = xs := by
  induction xs with
  | nil => rfl
  | cons h t ih => simp [JArr.ofList, JArr.toList, ih]

@[simp] theorem JArr.isNil_ofList (xs : List JValue) :
    (JArr.ofList xs).isNil = xs.isEmpty := by
  cases xs <;> rfl

@[simp] theorem JFields.fieldsToList_ofList (fs : List (String × JValue)) :
    (JFields.ofList fs).toList = fs := by
  induction fs with
  | nil => rfl
  | cons h t ih => cases h; simp [JFields.ofList, JFields.toList, ih]

theorem JValue.truthy_getD_null (v : JValue) (k : String) :
    (v.getD k .null).truthy = v.truthyKey k := by
  unfold JValue.getD JValue.truthyKey
  cases v.get k <;> rfl

/-! ## C6: page-body shape dispatch -/

theorem objects_in_page_eq_spec (endpoint_name : String) (data : JValue) :
    objects_in_page endpoint_name data = page_objects_spec endpoint_name data := by
  cases data with
  | obj fs =>
    unfold objects_in_page page_objects_spec
    by_cases h1 : (JValue.obj fs).truthyKey "data"
    · simp [h1, List.find?]
    · by_cases h2 : (JValue.obj fs).truthyKey "results"
      · simp [h1, h2, List.find?]
      · by_cases h3 : (JValue.obj fs).truthyKey "items"
        · simp [h1, h2, h3, List.find?]
        · by_cases h4 : (JValue.obj fs).truthyKey (rstripS endpoint_name)
          · simp [h1, h2, h3, h4, List.find?]
          · by_cases h5 : (JValue.obj fs).truthyKey endpoint_name
            · simp [h1, h2, h3, h4, h5, List.find?]
            · simp [h1, h2, h3, h4, h5, List.find?]
  | null => rfl
  | bool b => rfl
  | num n => rfl
  | str s => rfl
  | arr xs => rfl

theorem fetch_paginated_page_eq_spec (payload : JValue) :
    fetch_paginated_page payload = fetch_paginated_spec payload := by
  cases payload with
  | obj fs =>
    unfold fetch_paginated_page fetch_paginated_spec
    by_cases h1 : (JValue.obj fs).truthyKey "items"
    · simp [List.find?, h1, JValue.truthy_getD_null]
    · by_cases h2 : (JValue.obj fs).truthyKey "value"
      · simp [List.find?, h1, h2, JValue.truthy_getD_null]
      · simp [List.find?, h1, h2, JValue.truthy_getD_null, JValue.arrOf]
  | null => rfl
  | bool b => rfl
  | num n => rfl
  | str s => rfl
  | arr xs => rfl

/-- C6 (amended): for every page body, the backup paginator's selection
equals the ordered first-TRUTHY-key contract (`data`, `results`,
`items`, endpoint-name singular, endpoint-name plural, then the truthy
`id` singleton fallback, else empty) — presence of a key with a falsy
value does not select it; and the pipeline `ApiClient` paginator instead
selects the first truthy key among `items`, `value`, wrapping a truthy
non-list selection as a one-element page of the whole payload. -/
theorem c6_page_priority_amended (endpoint_name : String) (data payload : JValue) :
    objects_in_page endpoint_name data = page_objects_spec endpoint_name data ∧
    fetch_paginated_page payload = fetch_paginated_spec payload :=
  ⟨objects_in_page_eq_spec endpoint_name data, fetch_paginated_page_eq_spec payload⟩

/-- C6 counterexample: on the body
`{"data": [], "results": [{"id": "x"}]}` the code selects `results`
(the first key with a truthy value), while the claim as stated — first
key PRESENT in the priority order — selects the empty `data`; the two
disagree. -/
theorem c6_counterexample :
    objects_in_page "reviews"
        (.objOf [("data", .arrOf []), ("results", .arrOf [.objOf [("id", .str "x")]])])
      = .arrOf [.objOf [("id", .str "x")]] ∧
    page_objects_claimed "reviews"
        (.objOf [("data", .arrOf []), ("results", .arrOf [.objOf [("id", .str "x")]])])
      = .arrOf [] ∧
    (JValue.arrOf [.objOf [("id", .str "x")]]) ≠ .arrOf [] :=
  ⟨rfl, rfl, by decide⟩

end OktaIGA

namespace OktaIGA

/-! ## C2: empty registry and phase 2 -/

/-- C2 (amended): when phase 1 discovered no resource ids, step 2 of
`run_complete_backup` is skipped entirely — no sub-run is launched and
the summary is returned unchanged, so no resource-scoped endpoint
receives any entry (in particular not `failed/no_resources_available`).
The `failed/no_resources_available` marking exists only inside
`process_resource_endpoint` for an empty resource list, a call the
orchestrator never makes. -/
theorem c2_empty_registry_amended
    (eps : List (String × Bool))
    (f : String → List (Except Unit (ResourceConfigKind × Except Unit EndpointResult)))
    (s : Summary) (name : String) (subs : List (Except Unit SubResult)) (s' : Summary) :
    run_step2 [] eps f s = s ∧
    process_resource_endpoint name [] subs s' =
      { s' with endpoints_backed_up := s'.endpoints_backed_up ++
          [(name, { status := "failed", reason := some "no_resources_available" })] } :=
  ⟨rfl, rfl⟩

/-- C2 counterexample: with an empty registry and the enabled
resource endpoint `request_conditions`, step 2 leaves the summary
untouched — the endpoint gets no entry at all, contradicting the
claimed `failed/no_resources_available` result in the summary. -/
theorem c2_counterexample :
    run_step2 [] [("request_conditions", true)] (fun _ => []) ⟨[], 0⟩ = ⟨[], 0⟩ ∧
    (run_step2 [] [("request_conditions", true)] (fun _ => []) ⟨[], 0⟩).endpoints_backed_up.lookup
        "request_conditions" = none :=
  ⟨rfl, rfl⟩

/-! ## C1: 429 handling of the two transports -/

theorem backoffSeq_eq_iterate (r429 num den maxD k : Nat) :
    backoffSeq r429 num den maxD k = (next_backoff num den maxD)^[k] r429 := by
  induction k with
  | zero => rfl
  | succ n ih => rw [backoffSeq, ih, Function.iterate_succ_apply', next_backoff]

theorem api_client_request_on_429s (r429 num den maxD : Nat) (data : JValue)
    (rest : List HttpOutcome) :
    ∀ (ras : List (Option String)) (b : Nat),
      api_client_request r429 num den maxD
          (ras.map HttpOutcome.status429 ++ HttpOutcome.okJson data :: rest) b
        = some ((List.range ras.length).map
            (fun k => (next_backoff num den maxD)^[k] b), some data) := by
  intro ras
  induction ras with
  | nil => intro b; rfl
  | cons ra t ih =>
    intro b
    have hmap :
        List.map (fun j => (next_backoff num den maxD)^[j] (next_backoff num den maxD b))
          (List.range t.length)
        = List.map ((fun j => (next_backoff num den maxD)^[j] b) ∘ Nat.succ)
            (List.range t.length) := by
      apply List.map_congr_left
      intro j hj
      simp [Function.comp, Function.iterate_succ_apply]
    rw [List.map_cons, List.cons_append, api_client_request, ih (next_backoff num den maxD b),
      List.length_cons, List.range_succ_eq_map, List.map_cons, List.map_map, hmap]
    rfl

theorem backoffSeq_le_max (r429 num den maxD : Nat) (hinit : r429 ≤ maxD) :
    ∀ k, backoffSeq r429 num den maxD k ≤ maxD := by
  intro k
  induction k with
  | zero => exact hinit
  | succ n ih => exact min_le_right _ _

theorem backoffSeq_mono_step (r429 num den maxD : Nat) (hden : 0 < den) (hnum : den ≤ num)
    (hinit : r429 ≤ maxD) (k : Nat) :
    backoffSeq r429 num den maxD k ≤ backoffSeq r429 num den maxD (k + 1) := by
  rw [backoffSeq, next_backoff]
  refine le_min ?_ (backoffSeq_le_max r429 num den maxD hinit k)
  rw [Nat.le_div_iff_mul_le hden]
  exact Nat.mul_le_mul_left _ hnum

/-- C1 (amended): the backup system's `make_request` answers a 429 by
sleeping the `Retry-After`-derived delay (the configured
`retry_429_delay` when absent or unparsable) and returning failure —
it does not retry the call. The pipeline's `ApiClient._request` does
retry: ignoring any `Retry-After` header, the wait before the k-th
retry is `backoffSeq k`, starting at `retry_429_delay` with
`backoffSeq (k+1) = min(floor(backoffSeq k * multiplier), maxRetryDelay)`
(multiplier the exact rational `num/den`), monotonically non-decreasing
and capped by `maxRetryDelay` whenever `multiplier >= 1` and
`retry_429_delay <= maxRetryDelay`. -/
theorem c1_retry_amended (d : Int) (ra : Option String) (r429 num den maxD k : Nat)
    (ras : List (Option String)) (data : JValue) (rest : List HttpOutcome)
    (hden : 0 < den) (hnum : den ≤ num) (hinit : r429 ≤ maxD) :
    make_request d (.status429 ra) = ([make_request_429_delay ra d], none) ∧
    api_client_request r429 num den maxD
        (ras.map HttpOutcome.status429 ++ HttpOutcome.okJson data :: rest) r429
      = some ((List.range ras.length).map (backoffSeq r429 num den maxD), some data) ∧
    backoffSeq r429 num den maxD (k + 1)
      = min (backoffSeq r429 num den maxD k * num / den) maxD ∧
    backoffSeq r429 num den maxD k ≤ backoffSeq r429 num den maxD (k + 1) ∧
    backoffSeq r429 num den maxD k ≤ maxD := by
  refine ⟨rfl, ?_, rfl, backoffSeq_mono_step r429 num den maxD hden hnum hinit k,
    backoffSeq_le_max r429 num den maxD hinit k⟩
  rw [api_client_request_on_429s r429 num den maxD data rest ras r429]
  have hmap : List.map (fun j => (next_backoff num den maxD)^[j] r429) (List.range ras.length)
      = List.map (backoffSeq r429 num den maxD) (List.range ras.length) := by
    apply List.map_congr_left
    intro j hj
    rw [backoffSeq_eq_iterate]
  rw [hmap]

/-- C1 witness: concrete run of the amended statement at
`retry_429_delay = 10`, multiplier `3/2`, `max_retry_delay = 300`,
one 429 carrying `Retry-After: 1` followed by a success. -/
theorem c1_retry_amended_witness :
    make_request 10 (.status429 (some "7")) = ([make_request_429_delay (some "7") 10], none) ∧
    api_client_request 10 3 2 300
        ([some "1"].map HttpOutcome.status429 ++ HttpOutcome.okJson .null :: []) 10
      = some ((List.range 1).map (backoffSeq 10 3 2 300), some .null) ∧
    backoffSeq 10 3 2 300 2 = min (backoffSeq 10 3 2 300 1 * 3 / 2) 300 ∧
    backoffSeq 10 3 2 300 1 ≤ backoffSeq 10 3 2 300 2 ∧
    backoffSeq 10 3 2 300 1 ≤ 300 :=
  c1_retry_amended 10 (some "7") 10 3 2 300 1 [some "1"] .null []
    (by decide) (by decide) (by decide)

/-- C1 counterexample: `make_request` on a 429 with `Retry-After: 7`
sleeps 7 seconds and returns `(None, False)` — the call is not retried,
while the claim says the same call is retried within the attempt; and
`ApiClient._request` on a 429 carrying `Retry-After: 1` sleeps its
configured 10-second backoff, not the header's 1 second, while the
claim says `Retry-After` is read when present. -/
theorem c1_counterexample :
    make_request 10 (.status429 (some "7")) = ([7], none) ∧
    api_client_request 10 3 2 300 [.status429 (some "1"), .okJson .null] 10
      = some ([10], some .null) ∧
    api_client_request 10 3 2 300 [.status429 (some "1"), .okJson .null] 10
      ≠ some ([1], some .null) :=
  ⟨by decide, by decide, by decide⟩

/-! ## C8: the token-bucket rate limiter -/

theorem pyInt_eq_floor (q : ℚ) (h : 0 ≤ q) : pyInt q = ⌊q⌋ := by
  unfold pyInt
  rw [if_neg (not_lt.mpr h)]

/-- C8: under a positive configured rate and a wall clock at or after
`windowStart`, `check_rate_limit` implements exactly the admission rule
as the claim words it: reset after ≥ 60 s, `available = burst +
floor((elapsed/60) * rate)`, a sleep of `1/(rate/60)` capped at 60 s
exactly when the counter has reached `available`, and a counter
increment of exactly one. -/
theorem c8_rate_limit_spec (cfg : RateConfig) (now : ℚ) (s : RateState)
    (hR : 0 < cfg.rate_limit_per_minute) (hnow : s.start_time ≤ now) :
    check_rate_limit cfg now s = rate_admit_spec cfg now s := by
  have hRq : (0 : ℚ) < (cfg.rate_limit_per_minute : ℚ) := by exact_mod_cast hR
  have hrps : (0 : ℚ) < (cfg.rate_limit_per_minute : ℚ) / 60 := by
    exact div_pos hRq (by norm_num)
  have hst : (0 : ℚ) < 1 / ((cfg.rate_limit_per_minute : ℚ) / 60) := one_div_pos.mpr hrps
  unfold check_rate_limit rate_admit_spec
  by_cases hreset : (60 : ℚ) ≤ now - s.start_time
  · simp only [hreset, if_true, if_pos hst]
    norm_num [pyInt]
  · have helapsed : (0 : ℚ) ≤ now - s.start_time := sub_nonneg.mpr hnow
    have hq : (0 : ℚ) ≤ (now - s.start_time) / 60 * (cfg.rate_limit_per_minute : ℚ) := by
      apply mul_nonneg (div_nonneg helapsed (by norm_num)) (le_of_lt hRq)
    simp only [hreset, if_false, if_pos hst, pyInt_eq_floor _ hq]

/-- C8 witness: at rate 50/min, burst 10, window started at 0 with 10
requests admitted, an admission at t = 30 s matches the claim's rule
and proceeds without sleeping (available = 10 + 25). -/
theorem c8_rate_limit_spec_witness :
    0 < 50 ∧ ((0 : ℚ) ≤ 30) ∧
    check_rate_limit ⟨50, 10⟩ 30 ⟨0, 10⟩ = rate_admit_spec ⟨50, 10⟩ 30 ⟨0, 10⟩ ∧
    check_rate_limit ⟨50, 10⟩ 30 ⟨0, 10⟩ = (⟨0, 11⟩, 0) :=
  ⟨by decide, by norm_num,
   c8_rate_limit_spec ⟨50, 10⟩ 30 ⟨0, 10⟩ (by decide) (by norm_num),
   by norm_num [check_rate_limit, pyInt]⟩

end OktaIGA

namespace OktaIGA

/-! ## C5: transport failure during pagination -/

theorem list_phase_loop_through (name : String) :
    ∀ (pre : List Transport), (∀ t ∈ pre, continuing_page name t = true) →
      ∀ (rest : List Transport) (pf : Nat) (acc : List JValue),
        list_phase_loop name (pre ++ rest) pf acc
          = list_phase_loop name rest (pf + pre.length)
              (acc ++ (pre.map (transport_page_objects name)).flatten) := by
  intro pre
  induction pre with
  | nil => intro _ rest pf acc; simp
  | cons t pre' ih =>
    intro h rest pf acc
    have ht := h t (List.mem_cons_self t pre')
    have hrest : ∀ x ∈ pre', continuing_page name x = true :=
      fun x hx => h x (List.mem_cons_of_mem t hx)
    cases t with
    | failure => simp [continuing_page] at ht
    | ok data link =>
      simp only [continuing_page, Bool.and_eq_true, Bool.not_eq_true'] at ht
      obtain ⟨⟨⟨h1, h2⟩, h3⟩, h4⟩ := ht
      rw [List.cons_append, list_phase_loop]
      simp only [h1, h2, h4, Bool.true_eq_false, if_false, if_true]
      rw [ih hrest rest (pf + 1) (acc ++ (objects_in_page name data).pyIter)]
      simp only [List.map_cons, List.flatten_cons, transport_page_objects,
        List.length_cons, List.append_assoc]
      congr 1
      omega

theorem joined_pages_ne_nil (name : String) (pre : List Transport) (hpre : pre ≠ [])
    (h : ∀ t ∈ pre, continuing_page name t = true) :
    (pre.map (transport_page_objects name)).flatten ≠ [] := by
  cases pre with
  | nil => exact absurd rfl hpre
  | cons t pre' =>
    have ht := h t (List.mem_cons_self t pre')
    cases t with
    | failure => simp [continuing_page] at ht
    | ok data link =>
      simp only [continuing_page, Bool.and_eq_true, Bool.not_eq_true'] at ht
      obtain ⟨⟨⟨h1, h2⟩, h3⟩, h4⟩ := ht
      simp only [List.map_cons, List.flatten_cons, transport_page_objects]
      intro hcontra
      rcases List.append_eq_nil.mp hcontra with ⟨hl, _⟩
      rw [← List.isEmpty_iff] at hl
      rw [hl] at h3
      exact Bool.true_eq_false ▸ (h3 ▸ rfl : (true : Bool) = false) |>.elim

/-- C5: (a) a transport failure on the very first page yields the
endpoint result `failed/request_failed` with zero objects; (b) a
transport failure after at least one successful, object-bearing page
stops pagination and yields a `success` result whose `total_objects` is
the count of objects already fetched. -/
theorem c5_pagination_failure (name : String) (config : EndpointConfig)
    (details : List DetailOutcome) (registry : List JValue) (rest : List Transport)
    (pre : List Transport) (hpre : pre ≠ [])
    (hcont : ∀ t ∈ pre, continuing_page name t = true) :
    backup_endpoint_with_deep_details name config (.failure :: rest) details registry
      = some ⟨{ status := "failed", reason := some "request_failed" }, registry, []⟩ ∧
    (backup_endpoint_with_deep_details name config (pre ++ .failure :: rest) details
        registry).map
        (fun b => (b.result.status, b.result.reason, b.result.total_objects))
      = some ("success", none, ((pre.map (transport_page_objects name)).flatten).length) := by
  constructor
  · rfl
  · have hjoin := joined_pages_ne_nil name pre hpre hcont
    have hloop : list_phase_loop name (pre ++ .failure :: rest) 0 []
        = some ⟨pre.length, (pre.map (transport_page_objects name)).flatten, false⟩ := by
      rw [list_phase_loop_through name pre hcont (.failure :: rest) 0 []]
      rw [list_phase_loop]
      simp only [Nat.zero_add, List.nil_append]
      have hlen : (pre.length == 0) = false := by
        cases pre with
        | nil => exact absurd rfl hpre
        | cons a l => rfl
      rw [hlen]
    rw [backup_endpoint_with_deep_details, hloop]
    simp only [List.isEmpty_iff]
    rw [if_neg (by simp), if_neg hjoin]
    cases hdet : config.detail with
    | none => simp
    | some dp =>
      by_cases hlo : config.list_only = false
      · simp [hlo]
      · simp [hlo]

end OktaIGA

namespace OktaIGA

/-! ## Branch characterizations of `backup_endpoint_with_deep_details` -/

theorem backup_eq_none (name : String) (config : EndpointConfig) (stream : List Transport)
    (details : List DetailOutcome) (registry : List JValue)
    (hlp : list_phase_loop name stream 0 [] = none) :
    backup_endpoint_with_deep_details name config stream details registry = none := by
  unfold backup_endpoint_with_deep_details
  simp only [hlp]

theorem backup_eq_request_failed (name : String) (config : EndpointConfig)
    (stream : List Transport) (details : List DetailOutcome) (registry : List JValue)
    (lp : ListPhase) (hlp : list_phase_loop name stream 0 [] = some lp)
    (hrf : lp.request_failed = true) :
    backup_endpoint_with_deep_details name config stream details registry
      = some ⟨{ status := "failed", reason := some "request_failed" }, registry, []⟩ := by
  unfold backup_endpoint_with_deep_details
  simp only [hlp, hrf, if_true]

theorem backup_eq_no_entities (name : String) (config : EndpointConfig)
    (stream : List Transport) (details : List DetailOutcome) (registry : List JValue)
    (lp : ListPhase) (hlp : list_phase_loop name stream 0 [] = some lp)
    (hrf : lp.request_failed = false) (hne : lp.all_objects.isEmpty = true) :
    backup_endpoint_with_deep_details name config stream details registry
      = some ⟨{ status := "failed", reason := some "no_entities_discovered" }, registry, []⟩ := by
  unfold backup_endpoint_with_deep_details
  simp only [hlp, hrf, hne, Bool.false_eq_true, if_false, if_true]

theorem backup_eq_detail_success (name dpath : String) (stream : List Transport)
    (details : List DetailOutcome) (registry : List JValue) (lp : ListPhase)
    (hlp : list_phase_loop name stream 0 [] = some lp)
    (hrf : lp.request_failed = false) (hne : lp.all_objects.isEmpty = false) :
    backup_endpoint_with_deep_details name ⟨some dpath, false⟩ stream details registry
      = some ⟨{ status := "success",
                total_objects := lp.all_objects.length,
                pages_fetched := lp.pages_fetched,
                detailed_objects := (process_detail_results name
                  ((objects_with_id lp.all_objects).zip details) registry).objects_with_details,
                fallback_objects := (process_detail_results name
                  ((objects_with_id lp.all_objects).zip details) registry).fallback_objects },
              (process_detail_results name
                ((objects_with_id lp.all_objects).zip details) registry).registry,
              (process_detail_results name
                ((objects_with_id lp.all_objects).zip details) registry).detailed_objects⟩ := by
  unfold backup_endpoint_with_deep_details
  simp only [hlp, hrf, hne, Bool.false_eq_true, if_false]
  exact if_pos trivial

theorem backup_eq_list_only (name dpath : String) (stream : List Transport)
    (details : List DetailOutcome) (registry : List JValue) (lp : ListPhase)
    (hlp : list_phase_loop name stream 0 [] = some lp)
    (hrf : lp.request_failed = false) (hne : lp.all_objects.isEmpty = false) :
    backup_endpoint_with_deep_details name ⟨some dpath, true⟩ stream details registry
      = some ⟨{ status := "success",
                total_objects := lp.all_objects.length,
                pages_fetched := lp.pages_fetched,
                detailed_objects := lp.all_objects.length,
                fallback_objects := 0 },
              registry, lp.all_objects⟩ := by
  unfold backup_endpoint_with_deep_details
  simp only [hlp, hrf, hne, Bool.false_eq_true, if_false]
  exact if_neg (by simp)

theorem backup_eq_no_detail (name : String) (lo : Bool) (stream : List Transport)
    (details : List DetailOutcome) (registry : List JValue) (lp : ListPhase)
    (hlp : list_phase_loop name stream 0 [] = some lp)
    (hrf : lp.request_failed = false) (hne : lp.all_objects.isEmpty = false) :
    backup_endpoint_with_deep_details name ⟨none, lo⟩ stream details registry
      = some ⟨{ status := "success",
                total_objects := lp.all_objects.length,
                pages_fetched := lp.pages_fetched },
              lp.all_objects.foldl
                (fun r o => registry_add_all r (extract_resource_ids_from_object o name))
                registry, []⟩ := by
  unfold backup_endpoint_with_deep_details
  simp only [hlp, hrf, hne, Bool.false_eq_true, if_false]

end OktaIGA

namespace OktaIGA

/-- C5 witness: one page of one object with a `next` cursor, then a
transport failure — `success` with `total_objects = 1`; and a fresh
endpoint whose first call fails — `failed/request_failed`. -/
theorem c5_pagination_failure_witness :
    backup_endpoint_with_deep_details "reviews" ⟨none, false⟩ [.failure] [] []
      = some ⟨{ status := "failed", reason := some "request_failed" }, [], []⟩ ∧
    (backup_endpoint_with_deep_details "reviews" ⟨none, false⟩
        ([Transport.ok (.objOf [("data", .arrOf [.objOf [("id", .str "a")]]),
            ("next", .str "u")]) none] ++ [.failure]) [] []).map
        (fun b => (b.result.status, b.result.reason, b.result.total_objects))
      = some ("success", none, 1) :=
  ⟨(c5_pagination_failure "reviews" ⟨none, false⟩ [] [] []
      [Transport.ok (.objOf [("data", .arrOf [.objOf [("id", .str "a")]]),
        ("next", .str "u")]) none] (by decide) (by decide)).1,
   ((c5_pagination_failure "reviews" ⟨none, false⟩ [] [] []
      [Transport.ok (.objOf [("data", .arrOf [.objOf [("id", .str "a")]]),
        ("next", .str "u")]) none] (by decide) (by decide)).2).trans (by decide)⟩

/-! ## C3: detail-enrichment accounting -/

theorem process_detail_results_spec (name : String) :
    ∀ (pairs : List (JValue × DetailOutcome)) (reg : List JValue),
      (process_detail_results name pairs reg).objects_with_details
          + (process_detail_results name pairs reg).fallback_objects = pairs.length ∧
      (process_detail_results name pairs reg).detailed_objects
        = pairs.filterMap (fun p =>
            match p.2 with
            | .ok d => some d
            | .fb => some p.1
            | .exn => none) := by
  intro pairs
  induction pairs with
  | nil => intro reg; exact ⟨rfl, rfl⟩
  | cons hd tl ih =>
    intro reg
    obtain ⟨o, out⟩ := hd
    cases out with
    | ok d =>
      obtain ⟨h1, h2⟩ := ih (registry_add_all reg (extract_resource_ids_from_object d name))
      refine ⟨?_, ?_⟩
      · simp [process_detail_results, fetch_object_detail]
        omega
      · simp [process_detail_results, fetch_object_detail, h2]
    | fb =>
      obtain ⟨h1, h2⟩ := ih (registry_add_all reg (extract_resource_ids_from_object o name))
      refine ⟨?_, ?_⟩
      · simp [process_detail_results, fetch_object_detail]
        omega
      · simp [process_detail_results, fetch_object_detail, h2]
    | exn =>
      obtain ⟨h1, h2⟩ := ih reg
      refine ⟨?_, ?_⟩
      · simp [process_detail_results, fetch_object_detail]
        omega
      · simp [process_detail_results, fetch_object_detail, h2]

/-- C3 (amended): for an endpoint with a detail endpoint and not
list-only, exactly the listed objects with a truthy `id` receive a
detail task, and when the endpoint succeeds,
`detailedObjects + fallbackObjects` equals the count of those objects —
not `totalObjects`, which counts every listed object (objects lacking a
truthy `id` are skipped by enrichment entirely and stored nowhere by
it). Each detail task stores either the detailed body (counted detailed)
or, on detail-call failure, the original list object (counted fallback);
a task that raises is counted as a fallback but stores nothing. -/
theorem c3_enrichment_amended (name dpath : String) (stream : List Transport)
    (details : List DetailOutcome) (registry : List JValue) (b : BackupOutcome)
    (hb : backup_endpoint_with_deep_details name ⟨some dpath, false⟩ stream details registry
      = some b)
    (hsucc : b.result.status = "success")
    (hlen : details.length = (objects_with_id (listed_objects name stream)).length) :
    b.result.detailed_objects + b.result.fallback_objects
      = (objects_with_id (listed_objects name stream)).length ∧
    b.result.total_objects = (listed_objects name stream).length ∧
    b.detailed_list
      = ((objects_with_id (listed_objects name stream)).zip details).filterMap
          (fun p =>
            match p.2 with
            | .ok d => some d
            | .fb => some p.1
            | .exn => none) := by
  cases hlp : list_phase_loop name stream 0 [] with
  | none =>
    rw [backup_eq_none name ⟨some dpath, false⟩ stream details registry hlp] at hb
    exact absurd hb (by simp)
  | some lp =>
    have hlist : listed_objects name stream = lp.all_objects := by
      unfold listed_objects
      rw [hlp]
    by_cases hrf : lp.request_failed
    · rw [backup_eq_request_failed name ⟨some dpath, false⟩ stream details registry lp hlp
        hrf] at hb
      cases hb
      simp at hsucc
    · rw [Bool.not_eq_true] at hrf
      by_cases hne : lp.all_objects.isEmpty
      · rw [backup_eq_no_entities name ⟨some dpath, false⟩ stream details registry lp hlp
          hrf hne] at hb
        cases hb
        simp at hsucc
      · rw [Bool.not_eq_true] at hne
        rw [backup_eq_detail_success name dpath stream details registry lp hlp hrf hne] at hb
        cases hb
        obtain ⟨h1, h2⟩ := process_detail_results_spec name
          ((objects_with_id lp.all_objects).zip details) registry
        rw [hlist]
        have hziplen : ((objects_with_id lp.all_objects).zip details).length
            = (objects_with_id lp.all_objects).length := by
          rw [List.length_zip, hlen, hlist]
          exact Nat.min_self _
        exact ⟨by rw [← hziplen]; exact h1, rfl, h2⟩

/-- C3 witness: one listed object `{"id": "a"}` whose detail call fails:
the original object is stored as the fallback, and
`detailedObjects + fallbackObjects = 1`, the number of listed objects
with an id. -/
theorem c3_enrichment_amended_witness :
    backup_endpoint_with_deep_details "requests_v1" ⟨some "/governance/api/v1/requests", false⟩
        [Transport.ok (.arrOf [.objOf [("id", .str "a")]]) none] [.fb] []
      = some ⟨{ status := "success", total_objects := 1, pages_fetched := 1,
                detailed_objects := 0, fallback_objects := 1 }, [],
              [.objOf [("id", .str "a")]]⟩ ∧
    (0 + 1
        = (objects_with_id (listed_objects "requests_v1"
            [Transport.ok (.arrOf [.objOf [("id", .str "a")]]) none])).length ∧
      (1 : Nat)
        = (listed_objects "requests_v1"
            [Transport.ok (.arrOf [.objOf [("id", .str "a")]]) none]).length ∧
      ([.objOf [("id", .str "a")]] : List JValue)
        = ((objects_with_id (listed_objects "requests_v1"
              [Transport.ok (.arrOf [.objOf [("id", .str "a")]]) none])).zip
            [DetailOutcome.fb]).filterMap
            (fun p =>
              match p.2 with
              | .ok d => some d
              | .fb => some p.1
              | .exn => none)) :=
  ⟨by decide,
   c3_enrichment_amended "requests_v1" "/governance/api/v1/requests"
     [Transport.ok (.arrOf [.objOf [("id", .str "a")]]) none] [.fb] []
     ⟨{ status := "success", total_objects := 1, pages_fetched := 1,
        detailed_objects := 0, fallback_objects := 1 }, [], [.objOf [("id", .str "a")]]⟩
     (by decide) (by decide) (by decide)⟩

/-- C3 counterexample: a single listed object with no `id` gets no
detail task: the endpoint succeeds with `totalObjects = 1` but
`detailedObjects + fallbackObjects = 0`, and nothing is stored for the
object — the claimed equation fails. -/
theorem c3_counterexample :
    (backup_endpoint_with_deep_details "requests_v1"
        ⟨some "/governance/api/v1/requests", false⟩
        [Transport.ok (.arrOf [.objOf []]) none] [] []).map
      (fun b => (b.result.status, b.result.detailed_objects + b.result.fallback_objects,
                 b.result.total_objects, b.detailed_list))
      = some ("success", 0, 1, []) ∧
    (backup_endpoint_with_deep_details "requests_v1"
        ⟨some "/governance/api/v1/requests", false⟩
        [Transport.ok (.arrOf [.objOf []]) none] [] []).map
      (fun b => b.result.detailed_objects + b.result.fallback_objects)
      ≠ (backup_endpoint_with_deep_details "requests_v1"
          ⟨some "/governance/api/v1/requests", false⟩
          [Transport.ok (.arrOf [.objOf []]) none] [] []).map
        (fun b => b.result.total_objects) :=
  ⟨by decide, by decide⟩

end OktaIGA

namespace OktaIGA

/-! ## C10 and C4: summary aggregation -/

theorem backup_single_resource_context_failed_zero (kind : ResourceConfigKind)
    (run : Except Unit EndpointResult)
    (h : (backup_single_resource_context kind run).success = false) :
    (backup_single_resource_context kind run).objects = 0 := by
  cases kind <;> cases run <;> simp_all [backup_single_resource_context] <;>
    split_ifs at * <;> simp_all

theorem tally_foldl_general (subs : List (Except Unit SubResult)) :
    ∀ (acc : Nat × Nat × Nat),
      subs.foldl
        (fun acc r =>
          match r with
          | .error _ => (acc.1, acc.2.1, acc.2.2 + 1)
          | .ok sr =>
            if sr.success then (acc.1 + sr.objects, acc.2.1 + 1, acc.2.2)
            else (acc.1 + sr.objects, acc.2.1, acc.2.2 + 1))
        acc
      = (acc.1 + (subs.map (fun r =>
            match r with
            | .ok sr => sr.objects
            | .error _ => 0)).sum,
         acc.2.1 + (subs.filter (fun r =>
            match r with
            | .ok sr => sr.success
            | .error _ => false)).length,
         acc.2.2 + (subs.filter (fun r =>
            !(match r with
              | .ok sr => sr.success
              | .error _ => false))).length) := by
  induction subs with
  | nil => intro acc; simp
  | cons hd tl ih =>
    intro acc
    cases hd with
    | error e =>
      rw [List.foldl_cons, ih]
      simp
      omega
    | ok sr =>
      by_cases hs : sr.success
      · rw [List.foldl_cons]
        simp only [hs, if_true]
        rw [ih]
        simp [hs]
        omega
      · rw [List.foldl_cons]
        simp only [Bool.not_eq_true] at hs
        simp only [hs, Bool.false_eq_true, if_false]
        rw [ih]
        simp [hs]
        omega

theorem sub_results_objects_map (inputs :
    List (Except Unit (ResourceConfigKind × Except Unit EndpointResult))) :
    (sub_results_of inputs).map (fun r =>
        match r with
        | .ok sr => sr.objects
        | .error _ => 0)
      = inputs.map sub_success_objects := by
  unfold sub_results_of
  rw [List.map_map]
  apply List.map_congr_left
  intro i _
  cases i with
  | error e => rfl
  | ok p =>
    simp only [Function.comp, Except.map, sub_success_objects]
    by_cases hs : (backup_single_resource_context p.1 p.2).success
    · rw [if_pos hs]
    · rw [Bool.not_eq_true] at hs
      rw [hs]
      simp only [Bool.false_eq_true, if_false]
      exact backup_single_resource_context_failed_zero p.1 p.2 hs

theorem sub_results_success_filter (inputs :
    List (Except Unit (ResourceConfigKind × Except Unit EndpointResult))) :
    ((sub_results_of inputs).filter (fun r =>
        match r with
        | .ok sr => sr.success
        | .error _ => false)).length
      = (inputs.filter (fun i => sub_success i)).length ∧
    ((sub_results_of inputs).filter (fun r =>
        !(match r with
          | .ok sr => sr.success
          | .error _ => false))).length
      = (inputs.filter (fun i => !sub_success i)).length := by
  unfold sub_results_of
  rw [List.filter_map, List.filter_map, List.length_map, List.length_map]
  constructor
  · congr 1
    apply List.filter_congr
    intro i _
    cases i with
    | error e => rfl
    | ok p => rfl
  · congr 1
    apply List.filter_congr
    intro i _
    cases i with
    | error e => rfl
    | ok p => rfl

theorem tally_sub_results_of (inputs :
    List (Except Unit (ResourceConfigKind × Except Unit EndpointResult))) :
    tally_sub_results (sub_results_of inputs)
      = ((inputs.map sub_success_objects).sum,
         (inputs.filter (fun i => sub_success i)).length,
         (inputs.filter (fun i => !sub_success i)).length) := by
  unfold tally_sub_results
  rw [tally_foldl_general]
  simp only [Nat.zero_add]
  rw [sub_results_objects_map]
  rw [(sub_results_success_filter inputs).1, (sub_results_success_filter inputs).2]

theorem filter_length_pos_iff_any {α : Type} (l : List α) (p : α → Bool) :
    (0 < (l.filter p).length) ↔ l.any p := by
  rw [List.length_pos_iff_exists_mem, List.any_eq_true]
  constructor
  · rintro ⟨x, hx⟩
    rcases List.mem_filter.mp hx with ⟨hmem, hp⟩
    exact ⟨x, hmem, hp⟩
  · rintro ⟨x, hmem, hp⟩
    exact ⟨x, List.mem_filter.mpr ⟨hmem, hp⟩⟩

/-- C10: for a resource-scoped endpoint processed over a non-empty
resource-id list, the recorded entry has status `success` exactly when
at least one sub-run succeeded, its `total_objects` is the sum of
object counts over the successful sub-runs only (failed and raising
sub-runs contribute exactly 0), and the same sum is added to the
run-level total. -/
theorem c10_resource_aggregation (name : String) (resources : List JValue)
    (inputs : List (Except Unit (ResourceConfigKind × Except Unit EndpointResult)))
    (summary : Summary) (h : resources ≠ []) :
    process_resource_endpoint name resources (sub_results_of inputs) summary
      = { endpoints_backed_up := summary.endpoints_backed_up ++
            [(name, { status := if inputs.any (fun i => sub_success i) then "success"
                        else "failed",
                      total_objects := (inputs.map sub_success_objects).sum,
                      successful_resources := (inputs.filter (fun i => sub_success i)).length,
                      failed_resources := (inputs.filter (fun i => !sub_success i)).length,
                      resources_processed := resources.length })],
          total_objects := summary.total_objects + (inputs.map sub_success_objects).sum } := by
  unfold process_resource_endpoint
  rw [if_neg (by simp [List.isEmpty_iff, h])]
  rw [tally_sub_results_of]
  have hstat : (if 0 < (inputs.filter (fun i => sub_success i)).length then "success"
      else "failed")
      = (if inputs.any (fun i => sub_success i) then "success" else "failed") := by
    by_cases hp : inputs.any (fun i => sub_success i)
    · rw [if_pos hp, if_pos ((filter_length_pos_iff_any inputs _).mpr hp)]
    · rw [if_neg hp, if_neg (fun hc => hp ((filter_length_pos_iff_any inputs _).mp hc))]
  simp only [hstat]

/-- C10 witness: one resource id, one successful sub-run of 3 objects
plus one raising sub-task — entry `success` with `total_objects = 3`,
one successful and one failed resource. -/
theorem c10_resource_aggregation_witness :
    process_resource_endpoint "request_conditions" [.str "r1"]
        (sub_results_of [.ok (.resourceList, .ok { status := "success", total_objects := 3 }),
          .error ()]) ⟨[], 0⟩
      = { endpoints_backed_up := [("request_conditions",
            { status := "success", total_objects := 3, successful_resources := 1,
              failed_resources := 1, resources_processed := 1 })],
          total_objects := 3 } :=
  (c10_resource_aggregation "request_conditions" [.str "r1"]
    [.ok (.resourceList, .ok { status := "success", total_objects := 3 }), .error ()]
    ⟨[], 0⟩ (by decide)).trans (by decide)

end OktaIGA

namespace OktaIGA

theorem sum_success_totals_append (es : List (String × EndpointResult))
    (p : String × EndpointResult) :
    sum_success_totals (es ++ [p])
      = sum_success_totals es + (if p.2.status = "success" then p.2.total_objects else 0) := by
  unfold sum_success_totals
  rw [List.filter_append, List.foldl_append]
  by_cases hs : p.2.status = "success"
  · simp [hs, List.filter]
  · simp [hs, List.filter]

theorem process_basic_endpoint_preserves (rf : Bool) (name : String)
    (run : Except String EndpointResult) (s : Summary)
    (h : s.total_objects = sum_success_totals s.endpoints_backed_up) :
    (process_basic_endpoint rf name run s).total_objects
      = sum_success_totals (process_basic_endpoint rf name run s).endpoints_backed_up := by
  unfold process_basic_endpoint
  cases rf with
  | true => simpa using h
  | false =>
    cases run with
    | error e => simp [sum_success_totals_append, h]
    | ok r =>
      by_cases hs : r.status = "success"
      · simp [sum_success_totals_append, hs, h]
      · simp [sum_success_totals_append, hs, h]

theorem process_resource_endpoint_preserves (name : String) (resources : List JValue)
    (inputs : List (Except Unit (ResourceConfigKind × Except Unit EndpointResult)))
    (s : Summary)
    (h : s.total_objects = sum_success_totals s.endpoints_backed_up) :
    (process_resource_endpoint name resources (sub_results_of inputs) s).total_objects
      = sum_success_totals
          (process_resource_endpoint name resources (sub_results_of inputs) s).endpoints_backed_up := by
  unfold process_resource_endpoint
  by_cases hres : resources.isEmpty
  · simp [hres, sum_success_totals_append, h]
  · rw [if_neg (by simp [hres]), tally_sub_results_of]
    by_cases hany : 0 < (inputs.filter (fun i => sub_success i)).length
    · simp only [hany, if_true, sum_success_totals_append]
      simp [h]
    · have hnone : ∀ i ∈ inputs, sub_success i = false := by
        intro i hi
        by_contra hc
        rw [Bool.not_eq_false] at hc
        exact hany (List.length_pos_iff_exists_mem.mpr
          ⟨i, List.mem_filter.mpr ⟨hi, hc⟩⟩)
      have hzero : (inputs.map sub_success_objects).sum = 0 := by
        apply List.sum_eq_zero
        intro x hx
        obtain ⟨i, hi, rfl⟩ := List.mem_map.mp hx
        cases i with
        | error e => rfl
        | ok p =>
          have := hnone _ hi
          simp only [sub_success] at this
          simp [sub_success_objects, this]
      simp only [hany, if_false, sum_success_totals_append, hzero]
      simp [h]

theorem foldl_basic_preserves (l : List (Bool × String × Except String EndpointResult)) :
    ∀ s : Summary, s.total_objects = sum_success_totals s.endpoints_backed_up →
      (l.foldl (fun s e => process_basic_endpoint e.1 e.2.1 e.2.2 s) s).total_objects
        = sum_success_totals
            (l.foldl (fun s e => process_basic_endpoint e.1 e.2.1 e.2.2 s) s).endpoints_backed_up := by
  induction l with
  | nil => intro s h; exact h
  | cons hd tl ih =>
    intro s h
    exact ih _ (process_basic_endpoint_preserves hd.1 hd.2.1 hd.2.2 s h)

theorem foldl_resource_preserves (avail : List JValue)
    (f : String → List (Except Unit (ResourceConfigKind × Except Unit EndpointResult)))
    (l : List (String × Bool)) :
    ∀ s : Summary, s.total_objects = sum_success_totals s.endpoints_backed_up →
      (l.foldl (fun s p => process_resource_endpoint p.1 avail (sub_results_of (f p.1)) s)
          s).total_objects
        = sum_success_totals
            (l.foldl (fun s p => process_resource_endpoint p.1 avail (sub_results_of (f p.1)) s)
              s).endpoints_backed_up := by
  induction l with
  | nil => intro s h; exact h
  | cons hd tl ih =>
    intro s h
    exact ih _ (process_resource_endpoint_preserves hd.1 avail (f hd.1) s h)

/-- C4: in every completed run summary, the run-level `total_objects`
equals the sum of `total_objects` over exactly the recorded endpoint
results whose status is `success`; every `failed` endpoint result
contributes 0 (resource endpoints add their aggregate unconditionally,
but a `failed` aggregate is necessarily 0). -/
theorem c4_total_objects_invariant
    (basic : List (Bool × String × Except String EndpointResult))
    (available_resources : List JValue) (resource_endpoints : List (String × Bool))
    (subInputsFor : String →
      List (Except Unit (ResourceConfigKind × Except Unit EndpointResult))) :
    (run_complete_backup basic available_resources resource_endpoints
        subInputsFor).total_objects
      = sum_success_totals (run_complete_backup basic available_resources resource_endpoints
          subInputsFor).endpoints_backed_up := by
  unfold run_complete_backup run_step2
  have h1 := foldl_basic_preserves basic ⟨[], 0⟩ rfl
  by_cases hav : available_resources.isEmpty
  · rw [if_pos hav]
    exact h1
  · rw [if_neg hav]
    exact foldl_resource_preserves available_resources subInputsFor
      (resource_endpoints.filter (fun p => p.2)) _ h1

end OktaIGA

namespace OktaIGA

/-! ## C7: resource-id extraction, dedup, and failure isolation -/

theorem registry_add_nodup (r : List JValue) (x : JValue) (h : r.Nodup) :
    (registry_add r x).Nodup := by
  unfold registry_add
  split
  · exact h
  · next hx =>
    refine List.Nodup.append h (List.nodup_singleton x) ?_
    intro a ha hb
    rw [List.mem_singleton] at hb
    subst hb
    exact hx ha

theorem mem_registry_add_left (r : List JValue) (x y : JValue) (h : y ∈ r) :
    y ∈ registry_add r x := by
  unfold registry_add
  split
  · exact h
  · exact List.mem_append_left _ h

theorem mem_registry_add_self (r : List JValue) (x : JValue) : x ∈ registry_add r x := by
  unfold registry_add
  split
  · assumption
  · exact List.mem_append_right _ (List.mem_singleton_self x)

theorem registry_add_all_nodup (xs : List JValue) :
    ∀ r : List JValue, r.Nodup → (registry_add_all r xs).Nodup := by
  induction xs with
  | nil => intro r h; exact h
  | cons hd tl ih => intro r h; exact ih _ (registry_add_nodup r hd h)

theorem mem_registry_add_all_left (xs : List JValue) :
    ∀ (r : List JValue) (y : JValue), y ∈ r → y ∈ registry_add_all r xs := by
  induction xs with
  | nil => intro r y h; exact h
  | cons hd tl ih => intro r y h; exact ih _ y (mem_registry_add_left r hd y h)

theorem mem_registry_add_all_of_mem (xs : List JValue) :
    ∀ (r : List JValue) (y : JValue), y ∈ xs → y ∈ registry_add_all r xs := by
  induction xs with
  | nil => intro r y h; cases h
  | cons hd tl ih =>
    intro r y h
    rcases List.mem_cons.mp h with rfl | hmem
    · exact mem_registry_add_all_left tl _ y (mem_registry_add_self r y)
    · exact ih _ y hmem

theorem pd_registry_nodup (name : String) :
    ∀ (pairs : List (JValue × DetailOutcome)) (reg : List JValue), reg.Nodup →
      (process_detail_results name pairs reg).registry.Nodup := by
  intro pairs
  induction pairs with
  | nil => intro reg h; exact h
  | cons hd tl ih =>
    intro reg h
    obtain ⟨o, out⟩ := hd
    cases out with
    | ok d =>
      simpa [process_detail_results, fetch_object_detail] using
        ih _ (registry_add_all_nodup _ _ h)
    | fb =>
      simpa [process_detail_results, fetch_object_detail] using
        ih _ (registry_add_all_nodup _ _ h)
    | exn =>
      simpa [process_detail_results, fetch_object_detail] using ih _ h

theorem pd_registry_mono (name : String) :
    ∀ (pairs : List (JValue × DetailOutcome)) (reg : List JValue) (y : JValue), y ∈ reg →
      y ∈ (process_detail_results name pairs reg).registry := by
  intro pairs
  induction pairs with
  | nil => intro reg y h; exact h
  | cons hd tl ih =>
    intro reg y h
    obtain ⟨o, out⟩ := hd
    cases out with
    | ok d =>
      simpa [process_detail_results, fetch_object_detail] using
        ih _ y (mem_registry_add_all_left _ _ y h)
    | fb =>
      simpa [process_detail_results, fetch_object_detail] using
        ih _ y (mem_registry_add_all_left _ _ y h)
    | exn =>
      simpa [process_detail_results, fetch_object_detail] using ih _ y h

theorem pd_registry_covers (name : String) :
    ∀ (pairs : List (JValue × DetailOutcome)) (reg : List JValue) (o : JValue)
      (out : DetailOutcome), (o, out) ∈ pairs →
      (∀ d, out = DetailOutcome.ok d →
        ∀ x ∈ extract_resource_ids_from_object d name,
          x ∈ (process_detail_results name pairs reg).registry) ∧
      (out = DetailOutcome.fb →
        ∀ x ∈ extract_resource_ids_from_object o name,
          x ∈ (process_detail_results name pairs reg).registry) := by
  intro pairs
  induction pairs with
  | nil => intro reg o out h; cases h
  | cons hd tl ih =>
    intro reg o out h
    obtain ⟨o', out'⟩ := hd
    rcases List.mem_cons.mp h with heq | hmem
    · rw [Prod.mk.injEq] at heq
      obtain ⟨rfl, rfl⟩ := heq
      cases out with
      | ok d0 =>
        constructor
        · intro d hdd x hx
          cases hdd
          simp only [process_detail_results, fetch_object_detail]
          exact pd_registry_mono name tl _ x (mem_registry_add_all_of_mem _ _ x hx)
        · intro hfb
          cases hfb
      | fb =>
        constructor
        · intro d hdd
          cases hdd
        · intro _ x hx
          simp only [process_detail_results, fetch_object_detail]
          exact pd_registry_mono name tl _ x (mem_registry_add_all_of_mem _ _ x hx)
      | exn =>
        constructor
        · intro d hdd
          cases hdd
        · intro hfb
          cases hfb
    · cases out' with
      | ok d' =>
        have := ih (registry_add_all reg (extract_resource_ids_from_object d' name)) o out hmem
        simpa [process_detail_results, fetch_object_detail] using this
      | fb =>
        have := ih (registry_add_all reg (extract_resource_ids_from_object o' name)) o out hmem
        simpa [process_detail_results, fetch_object_detail] using this
      | exn =>
        have := ih reg o out hmem
        simpa [process_detail_results, fetch_object_detail] using this

theorem pd_counts_indep (name : String) :
    ∀ (pairs : List (JValue × DetailOutcome)) (reg reg' : List JValue),
      (process_detail_results name pairs reg).objects_with_details
          = (process_detail_results name pairs reg').objects_with_details ∧
      (process_detail_results name pairs reg).fallback_objects
          = (process_detail_results name pairs reg').fallback_objects ∧
      (process_detail_results name pairs reg).detailed_objects
          = (process_detail_results name pairs reg').detailed_objects := by
  intro pairs
  induction pairs with
  | nil => intro reg reg'; exact ⟨rfl, rfl, rfl⟩
  | cons hd tl ih =>
    intro reg reg'
    obtain ⟨o, out⟩ := hd
    cases out with
    | ok d =>
      have h := ih (registry_add_all reg (extract_resource_ids_from_object d name))
        (registry_add_all reg' (extract_resource_ids_from_object d name))
      simp only [process_detail_results, fetch_object_detail]
      simp [h.1, h.2.1, h.2.2]
    | fb =>
      have h := ih (registry_add_all reg (extract_resource_ids_from_object o name))
        (registry_add_all reg' (extract_resource_ids_from_object o name))
      simp only [process_detail_results, fetch_object_detail]
      simp [h.1, h.2.1, h.2.2]
    | exn =>
      have h := ih reg reg'
      simp only [process_detail_results, fetch_object_detail]
      simp [h.1, h.2.1, h.2.2]

theorem foldl_extract_nodup (name : String) (objs : List JValue) :
    ∀ reg : List JValue, reg.Nodup →
      (objs.foldl (fun r o => registry_add_all r (extract_resource_ids_from_object o name))
        reg).Nodup := by
  induction objs with
  | nil => intro reg h; exact h
  | cons hd tl ih => intro reg h; exact ih _ (registry_add_all_nodup _ _ h)

theorem foldl_extract_mono (name : String) (objs : List JValue) :
    ∀ (reg : List JValue) (y : JValue), y ∈ reg →
      y ∈ objs.foldl (fun r o => registry_add_all r (extract_resource_ids_from_object o name))
        reg := by
  induction objs with
  | nil => intro reg y h; exact h
  | cons hd tl ih => intro reg y h; exact ih _ y (mem_registry_add_all_left _ _ y h)

theorem foldl_extract_covers (name : String) (objs : List JValue) :
    ∀ (reg : List JValue) (o : JValue), o ∈ objs →
      ∀ x ∈ extract_resource_ids_from_object o name,
        x ∈ objs.foldl (fun r o => registry_add_all r (extract_resource_ids_from_object o name))
          reg := by
  induction objs with
  | nil => intro reg o h; cases h
  | cons hd tl ih =>
    intro reg o h x hx
    rcases List.mem_cons.mp h with rfl | hmem
    · exact foldl_extract_mono name tl _ x (mem_registry_add_all_of_mem _ _ x hx)
    · exact ih _ o hmem x hx

end OktaIGA

namespace OktaIGA

theorem backup_result_indep (name : String) (cfg : EndpointConfig) (stream : List Transport)
    (details : List DetailOutcome) (reg reg' : List JValue) :
    (backup_endpoint_with_deep_details name cfg stream details reg).map (fun b => b.result)
      = (backup_endpoint_with_deep_details name cfg stream details reg').map
          (fun b => b.result) := by
  cases hlp : list_phase_loop name stream 0 [] with
  | none =>
    rw [backup_eq_none name cfg stream details reg hlp,
      backup_eq_none name cfg stream details reg' hlp]
  | some lp =>
    by_cases hrf : lp.request_failed
    · rw [backup_eq_request_failed name cfg stream details reg lp hlp hrf,
        backup_eq_request_failed name cfg stream details reg' lp hlp hrf]
      rfl
    · rw [Bool.not_eq_true] at hrf
      by_cases hne : lp.all_objects.isEmpty
      · rw [backup_eq_no_entities name cfg stream details reg lp hlp hrf hne,
          backup_eq_no_entities name cfg stream details reg' lp hlp hrf hne]
        rfl
      · rw [Bool.not_eq_true] at hne
        obtain ⟨det, lo⟩ := cfg
        cases det with
        | none =>
          rw [backup_eq_no_detail name lo stream details reg lp hlp hrf hne,
            backup_eq_no_detail name lo stream details reg' lp hlp hrf hne]
          rfl
        | some dp =>
          cases lo with
          | true =>
            rw [backup_eq_list_only name dp stream details reg lp hlp hrf hne,
              backup_eq_list_only name dp stream details reg' lp hlp hrf hne]
            rfl
          | false =>
            rw [backup_eq_detail_success name dp stream details reg lp hlp hrf hne,
              backup_eq_detail_success name dp stream details reg' lp hlp hrf hne]
            have h := pd_counts_indep name ((objects_with_id lp.all_objects).zip details)
              reg reg'
            simp [h.1, h.2.1]

/-- C7: during any endpoint backup, the collected-resource-id registry
stays duplicate-free and only grows; for a detail-enriched endpoint that
succeeded, every listed object with a truthy `id` has its resource ids
extracted — from the detailed body when its detail call succeeded and
from the original list object when it fell back; for an endpoint with no
detail endpoint every listed object is mined directly; extraction can
never change the endpoint result (the result is the same whatever the
registry holds, so an extraction failure — modelled by extraction
returning nothing for malformed shapes — never fails the backup); and in
the shipped catalog `reviews` and `campaigns` are exactly the two
detail-enriched, non-list-only global endpoints the extractor reacts
to. -/
theorem c7_resource_extraction (name : String) (cfg : EndpointConfig)
    (stream : List Transport) (details : List DetailOutcome) (reg : List JValue)
    (b : BackupOutcome)
    (hb : backup_endpoint_with_deep_details name cfg stream details reg = some b) :
    (reg.Nodup → b.registry.Nodup) ∧
    (∀ x ∈ reg, x ∈ b.registry) ∧
    (∀ dpath, cfg = ⟨some dpath, false⟩ → b.result.status = "success" →
      ∀ o out, (o, out) ∈ (objects_with_id (listed_objects name stream)).zip details →
        (∀ d, out = DetailOutcome.ok d →
          ∀ x ∈ extract_resource_ids_from_object d name, x ∈ b.registry) ∧
        (out = DetailOutcome.fb →
          ∀ x ∈ extract_resource_ids_from_object o name, x ∈ b.registry)) ∧
    (cfg.detail = none → b.result.status = "success" →
      ∀ o ∈ listed_objects name stream,
        ∀ x ∈ extract_resource_ids_from_object o name, x ∈ b.registry) ∧
    (∀ reg', (backup_endpoint_with_deep_details name cfg stream details reg').map
        (fun bb => bb.result) = some b.result) ∧
    get_global_endpoints.lookup "reviews"
      = some { detail := some "/governance/api/v1/reviews/{id}" } ∧
    get_global_endpoints.lookup "campaigns"
      = some { detail := some "/governance/api/v1/campaigns/{id}" } := by
  obtain ⟨det, lo⟩ := cfg
  cases hlp : list_phase_loop name stream 0 [] with
  | none =>
    rw [backup_eq_none name ⟨det, lo⟩ stream details reg hlp] at hb
    exact absurd hb (by simp)
  | some lp =>
    have hlist : listed_objects name stream = lp.all_objects := by
      unfold listed_objects
      rw [hlp]
    have hindep : ∀ reg',
        (backup_endpoint_with_deep_details name ⟨det, lo⟩ stream details reg').map
          (fun bb => bb.result)
        = (backup_endpoint_with_deep_details name ⟨det, lo⟩ stream details reg).map
            (fun bb => bb.result) :=
      fun reg' => backup_result_indep name ⟨det, lo⟩ stream details reg' reg
    by_cases hrf : lp.request_failed
    · rw [backup_eq_request_failed name ⟨det, lo⟩ stream details reg lp hlp hrf] at hb
      cases hb
      refine ⟨fun h => h, fun x hx => hx, ?_, ?_, ?_, by decide, by decide⟩
      · intro dpath _ hsucc
        simp at hsucc
      · intro _ hsucc
        simp at hsucc
      · intro reg'
        rw [hindep reg',
          backup_eq_request_failed name ⟨det, lo⟩ stream details reg lp hlp hrf]
        rfl
    · rw [Bool.not_eq_true] at hrf
      by_cases hne : lp.all_objects.isEmpty
      · rw [backup_eq_no_entities name ⟨det, lo⟩ stream details reg lp hlp hrf hne] at hb
        cases hb
        refine ⟨fun h => h, fun x hx => hx, ?_, ?_, ?_, by decide, by decide⟩
        · intro dpath _ hsucc
          simp at hsucc
        · intro _ hsucc
          simp at hsucc
        · intro reg'
          rw [hindep reg',
            backup_eq_no_entities name ⟨det, lo⟩ stream details reg lp hlp hrf hne]
          rfl
      · rw [Bool.not_eq_true] at hne
        cases det with
        | none =>
          rw [backup_eq_no_detail name lo stream details reg lp hlp hrf hne] at hb
          cases hb
          refine ⟨?_, ?_, ?_, ?_, ?_, by decide, by decide⟩
          · exact foldl_extract_nodup name lp.all_objects reg
          · exact fun x hx => foldl_extract_mono name lp.all_objects reg x hx
          · intro dpath hcfg
            simp at hcfg
          · intro _ _ o hmem x hx
            rw [hlist] at hmem
            exact foldl_extract_covers name lp.all_objects reg o hmem x hx
          · intro reg'
            rw [hindep reg',
              backup_eq_no_detail name lo stream details reg lp hlp hrf hne]
            rfl
        | some dp =>
          cases lo with
          | true =>
            rw [backup_eq_list_only name dp stream details reg lp hlp hrf hne] at hb
            cases hb
            refine ⟨fun h => h, fun x hx => hx, ?_, ?_, ?_, by decide, by decide⟩
            · intro dpath hcfg
              simp at hcfg
            · intro hdet
              simp at hdet
            · intro reg'
              rw [hindep reg',
                backup_eq_list_only name dp stream details reg lp hlp hrf hne]
              rfl
          | false =>
            rw [backup_eq_detail_success name dp stream details reg lp hlp hrf hne] at hb
            cases hb
            refine ⟨?_, ?_, ?_, ?_, ?_, by decide, by decide⟩
            · exact pd_registry_nodup name ((objects_with_id lp.all_objects).zip details) reg
            · exact fun x hx =>
                pd_registry_mono name ((objects_with_id lp.all_objects).zip details) reg x hx
            · intro dpath _ _ o out hmem
              rw [hlist] at hmem
              exact pd_registry_covers name ((objects_with_id lp.all_objects).zip details)
                reg o out hmem
            · intro hdet
              simp at hdet
            · intro reg'
              rw [hindep reg',
                backup_eq_detail_success name dp stream details reg lp hlp hrf hne]
              rfl

end OktaIGA

namespace OktaIGA

/-- C7 witness: a `campaigns` backup of one object with two target
resources, whose detail call succeeds: the registry becomes
`{"r1", "r2"}`, duplicate-free. -/
theorem c7_resource_extraction_witness :
    backup_endpoint_with_deep_details "campaigns"
        ⟨some "/governance/api/v1/campaigns/{id}", false⟩
        [Transport.ok (.arrOf [.objOf [("id", .str "c1"),
          ("resourceSettings", .objOf [("targetResources", .arrOf
            [.objOf [("resourceId", .str "r1")], .objOf [("resourceId", .str "r2")]])])]])
          none]
        [.ok (.objOf [("id", .str "c1"),
          ("resourceSettings", .objOf [("targetResources", .arrOf
            [.objOf [("resourceId", .str "r1")], .objOf [("resourceId", .str "r2")]])])])]
        []
      = some ⟨{ status := "success", total_objects := 1, pages_fetched := 1,
                detailed_objects := 1, fallback_objects := 0 },
              [.str "r1", .str "r2"],
              [.objOf [("id", .str "c1"),
                ("resourceSettings", .objOf [("targetResources", .arrOf
                  [.objOf [("resourceId", .str "r1")],
                   .objOf [("resourceId", .str "r2")]])])]]⟩ ∧
    ([] : List JValue).Nodup ∧
    ([JValue.str "r1", JValue.str "r2"] : List JValue).Nodup ∧
    extract_resource_ids_from_object
        (.objOf [("id", .str "c1"),
          ("resourceSettings", .objOf [("targetResources", .arrOf
            [.objOf [("resourceId", .str "r1")], .objOf [("resourceId", .str "r2")]])])])
        "campaigns"
      = [.str "r1", .str "r2"] :=
  ⟨by decide, by decide,
   (c7_resource_extraction "campaigns"
     ⟨some "/governance/api/v1/campaigns/{id}", false⟩
     [Transport.ok (.arrOf [.objOf [("id", .str "c1"),
       ("resourceSettings", .objOf [("targetResources", .arrOf
         [.objOf [("resourceId", .str "r1")], .objOf [("resourceId", .str "r2")]])])]])
       none]
     [.ok (.objOf [("id", .str "c1"),
       ("resourceSettings", .objOf [("targetResources", .arrOf
         [.objOf [("resourceId", .str "r1")], .objOf [("resourceId", .str "r2")]])])])]
     []
     ⟨{ status := "success", total_objects := 1, pages_fetched := 1,
        detailed_objects := 1, fallback_objects := 0 },
      [.str "r1", .str "r2"],
      [.objOf [("id", .str "c1"),
        ("resourceSettings", .objOf [("targetResources", .arrOf
          [.objOf [("resourceId", .str "r1")], .objOf [("resourceId", .str "r2")]])])]]⟩
     (by decide)).1 (by decide),
   by decide⟩

/-! ## C9: authentication modes and credential loading -/

/-- C9 (amended): at the authenticator level the two modes are mutually
exclusive and selected by which credential fields are present — a truthy
API token always yields `SSWS` headers (even when OAuth credentials are
also present), and OAuth-only credentials yield `Bearer` headers after a
token fetch; a cached token is reused exactly while `now` is before the
stored expiry, which is set 300 seconds (5 minutes) before the token's
actual expiry; in token mode `get_headers` returns the stored headers
untouched. However, the backup system's JSON credential loader requires
`api_token`, so a tenant supplying only OAuth client id and secret fails
credential loading before any network call — every run through the
backup system uses `SSWS` mode. -/
theorem c9_auth_modes_amended (s : AuthState) (now nowQ : ℚ)
    (tokenFetch : Option (String × ℚ)) (tok : String) (expires_in : ℚ)
    (t : TenantRecord) (prev : List (String × String)) :
    (pyTruthyOptStr s.api_token = true →
      setup_authentication s now tokenFetch
        = .ok (s, auth_headers ("SSWS " ++ s.api_token.getD ""))) ∧
    (pyTruthyOptStr s.api_token = false →
      pyTruthyOptStr s.client_id = true → pyTruthyOptStr s.client_secret = true →
      token_still_valid s now = false → tokenFetch = some (tok, expires_in) → tok ≠ "" →
      setup_authentication s now tokenFetch
        = .ok ({ s with token_expires_at := some (now + (expires_in - 300)),
                        access_token := some tok },
               auth_headers ("Bearer " ++ tok))) ∧
    (token_still_valid s now = true →
      ensure_valid_token s now tokenFetch = (s, true)) ∧
    (tok ≠ "" →
      token_still_valid { s with token_expires_at := some (now + (expires_in - 300)),
                                 access_token := some tok } nowQ
        = decide (nowQ < now + (expires_in - 300))) ∧
    (pyTruthyOptStr t.api_token = false →
      exceptOk (fetch_tenant_credentials_from_json t) = false) ∧
    (pyTruthyOptStr s.api_token = true →
      get_headers s now tokenFetch prev = .ok (s, prev)) := by
  refine ⟨?_, ?_, ?_, ?_, ?_, ?_⟩
  · intro h
    unfold setup_authentication
    rw [if_pos h]
  · intro h1 h2 h3 hval hfetch htok
    have hguard : (pyTruthyOptStr s.client_id && pyTruthyOptStr s.client_secret) = true := by
      simp [h2, h3]
    have hfo : fetch_oauth_token s now tokenFetch
        = ({ s with token_expires_at := some (now + (expires_in - 300)) }, some tok) := by
      unfold fetch_oauth_token
      rw [if_neg (by simp [hguard])]
      simp only [hfetch]
      rw [if_pos htok]
    have hev : ensure_valid_token s now tokenFetch
        = ({ s with token_expires_at := some (now + (expires_in - 300)),
                    access_token := some tok }, true) := by
      unfold ensure_valid_token
      rw [if_neg (by simp [hval]), hfo]
      rfl
    unfold setup_authentication
    rw [if_neg (by simp [h1]), if_pos hguard, hev]
    rfl
  · intro h
    unfold ensure_valid_token
    rw [if_pos h]
  · intro htok
    simp [token_still_valid, pyTruthyOptStr, htok]
  · intro h
    unfold fetch_tenant_credentials_from_json
    by_cases hd : pyTruthyOptStr t.okta_domain
    · rw [if_neg (by simp [hd]), if_pos (by simp [h])]
      rfl
    · rw [if_pos (by simpa using hd)]
      rfl
  · intro h
    unfold get_headers
    rw [if_neg (by simp [h])]

/-- C9 witness: a state holding both an API token and OAuth credentials
selects `SSWS` (priority); an OAuth-only state fetches a bearer token
expiring in 3600 s and stores expiry 3300 s (the 5-minute margin);
the cached token is reused at t = 3299 and refreshed at t = 3300; and
the JSON loader rejects an OAuth-only tenant record. -/
theorem c9_auth_modes_amended_witness :
    setup_authentication ⟨some "tkn", some "cid", some "sec", none, none⟩ 0 none
      = .ok (⟨some "tkn", some "cid", some "sec", none, none⟩,
             auth_headers ("SSWS " ++ "tkn")) ∧
    setup_authentication ⟨none, some "cid", some "sec", none, none⟩ 0 (some ("bear", 3600))
      = .ok (⟨none, some "cid", some "sec", some "bear", some (0 + (3600 - 300))⟩,
             auth_headers ("Bearer " ++ "bear")) ∧
    token_still_valid ⟨none, some "cid", some "sec", some "bear", some 3300⟩ 3299 = true ∧
    token_still_valid ⟨none, some "cid", some "sec", some "bear", some 3300⟩ 3300 = false ∧
    exceptOk (fetch_tenant_credentials_from_json
        ⟨some "acme.okta.com", none, some "cid", some "sec"⟩) = false ∧
    get_headers ⟨some "tkn", some "cid", some "sec", none, none⟩ 0 none
        (auth_headers ("SSWS " ++ "tkn"))
      = .ok (⟨some "tkn", some "cid", some "sec", none, none⟩,
             auth_headers ("SSWS " ++ "tkn")) := by
  refine ⟨?_, ?_, ?_, ?_, ?_, ?_⟩
  · exact (c9_auth_modes_amended ⟨some "tkn", some "cid", some "sec", none, none⟩ 0 0
      none "" 0 ⟨none, none, none, none⟩ []).1 (by decide)
  · have htok : ("bear" : String) ≠ "" := by decide
    exact (c9_auth_modes_amended ⟨none, some "cid", some "sec", none, none⟩ 0 0
      (some ("bear", 3600)) "bear" 3600 ⟨none, none, none, none⟩ []).2.1
      rfl (by decide) (by decide) rfl rfl htok
  · have h1 : pyTruthyOptStr (some "bear") = true := by decide
    have h2 : ((3299 : ℚ) < 3300) := by norm_num
    simp [token_still_valid, h1, h2]
  · have h1 : pyTruthyOptStr (some "bear") = true := by decide
    have h2 : ¬((3300 : ℚ) < 3300) := by norm_num
    simp [token_still_valid, h1, h2]
  · exact (c9_auth_modes_amended ⟨none, none, none, none, none⟩ 0 0 none "" 0
      ⟨some "acme.okta.com", none, some "cid", some "sec"⟩ []).2.2.2.2.1 rfl
  · exact (c9_auth_modes_amended ⟨some "tkn", some "cid", some "sec", none, none⟩ 0 0
      none "" 0 ⟨none, none, none, none⟩
      (auth_headers ("SSWS " ++ "tkn"))).2.2.2.2.2 (by decide)

/-- C9 counterexample: a tenant record carrying only OAuth client
credentials (no static API token) is rejected by
`fetch_tenant_credentials_from_json` — the run aborts while loading
credentials instead of proceeding in Bearer-token mode as the claim
states. -/
theorem c9_counterexample :
    fetch_tenant_credentials_from_json
        { okta_domain := some "acme.okta.com", api_token := none,
          oauth_client_id := some "cid", oauth_client_secret := some "secret" }
      = .error "api_token not found" ∧
    pyTruthyOptStr (some "cid") = true ∧
    pyTruthyOptStr (some "secret") = true :=
  ⟨rfl, by decide, by decide⟩

end OktaIGA
